import Mathlib

/-!
# Multi-gait quadruped environment (`Environment.hpp`)

A shallow embedding of `raisim::ENVIRONMENT`.

* A `double` / `float` is a scalar of an ordered field `α` (exact arithmetic; rounding,
  overflow and NaN are outside the model).  Results about `exp` / `log` / `sqrt` take `α = ℝ`.
  The one exception is the velocity term of `step`: `forwardVelDifferenceDouble` evaluates
  it with the rounding of `double` (`roundDouble`), because its range depends on it.
* An `Eigen::VectorXd` is a `List α`.
* The physics engine is a black box: the mechanism is a record `World`, and
  `world_->integrate()` is a function `integrate : World α → World α` passed to `step`.
* `std::exp`, `std::log` (Eigen `array().log()`), `sqrt` (inside Eigen `normalize()`) and
  `raisim::quatToRotMat` are library functions; they are collected in `MathLib`.
-/

namespace raisim

variable {α : Type}

/-! ## Library functions and Eigen vector operations -/

/-- Library functions called by the environment. -/
structure MathLib (α : Type) where
  exp : α → α
  log : α → α
  sqrt : α → α
  quatToRotMat : List α → Fin 3 → Fin 3 → α

/-- Entry `v[i]` of a vector. -/
def at_ [Zero α] (v : List α) (i : Nat) : α := v.getD i 0

/-- Eigen `setZero(n)`. -/
def setZero [Zero α] (n : Nat) : List α := List.replicate n 0

/-- Eigen `v.tail(n)`: the last `n` entries. -/
def tail (v : List α) (n : Nat) : List α := v.drop (v.length - n)

/-- Eigen `v.segment(i, n)`. -/
def segment (v : List α) (i n : Nat) : List α := (v.drop i).take n

/-- Eigen `v.tail(n) = w`: the last `n` entries are replaced by `w`. -/
def assignTail (v : List α) (n : Nat) (w : List α) : List α := v.take (v.length - n) ++ w

/-- Eigen `v.cwiseProduct(w)`. -/
def cwiseProduct [Mul α] (v w : List α) : List α := List.zipWith (· * ·) v w

/-- Eigen `v += w`. -/
def addAssign [Add α] (v w : List α) : List α := List.zipWith (· + ·) v w

/-- Eigen `v.squaredNorm()`. -/
def squaredNorm [Mul α] [Add α] [Zero α] (v : List α) : α := (v.map fun x => x * x).sum

/-- Eigen `v.normalize()` (Eigen 3.3 and later): divides by the norm when the squared norm
is positive and leaves the vector alone otherwise. -/
def normalize [LinearOrderedField α] (L : MathLib α) (v : List α) : List α :=
  let z := squaredNorm v
  if 0 < z then v.map (fun x => x / L.sqrt z) else v

/-- Eigen `M.transpose() * v` for a 3x3 matrix and a 3-vector. -/
def transposeMul [Mul α] [Add α] [Zero α] (M : Fin 3 → Fin 3 → α) (v : List α) : List α :=
  [M 0 0 * at_ v 0 + M 1 0 * at_ v 1 + M 2 0 * at_ v 2,
   M 0 1 * at_ v 0 + M 1 1 * at_ v 1 + M 2 1 * at_ v 2,
   M 0 2 * at_ v 0 + M 1 2 * at_ v 1 + M 2 2 * at_ v 2]

/-- Eigen `M.row(2).transpose()`. -/
def row2 (M : Fin 3 → Fin 3 → α) : List α := [M 2 0, M 2 1, M 2 2]

/-- Eigen comma initialiser `v << x0, x1, ...`: the given entries are written into `v` from
index 0 on; entries of `v` past the written ones keep their old value. -/
def commaInit (v vals : List α) : List α := vals.take v.length ++ v.drop vals.length

/-! ## The mechanism -/

/-- One entry of `anymal_->getContacts()`.  The inner loop of `updateObservation` declares
`int i;` without a value and reads `single_contact_impulse[-1]`; the value `i` starts from
and the value that read returns are inputs of the model (`loopStart`, `readBack`). -/
structure Contact (α : Type) where
  skip : Bool
  localBodyIndex : Nat
  frame : Fin 3 → Fin 3 → α
  impulse : List α
  loopStart : Nat
  readBack : α

/-- State of the articulated system as the environment can read or set it. -/
structure World (α : Type) where
  gc : List α
  gv : List α
  generalizedForce : List α
  contacts : List (Contact α)
  pdPosition : List α
  pdVelocity : List α

/-- Engine call `anymal_->setState(gc, gv)`. -/
def World.setState (w : World α) (gc gv : List α) : World α := { w with gc := gc, gv := gv }

/-- Engine call `anymal_->setPdTarget(p, v)`. -/
def World.setPdTarget (w : World α) (p v : List α) : World α :=
  { w with pdPosition := p, pdVelocity := v }

/-- Calls that `step` issues to the engine and to the visualisation server, in order. -/
inductive Call (α : Type) where
  | setPdTarget (p v : List α)
  | lockVisualizationServerMutex
  | integrate
  | unlockVisualizationServerMutex

/-- A call is a fine integration step. -/
def Call.isIntegrate : Call α → Bool
  | .integrate => true
  | _ => false

/-- A call sets the PD target. -/
def Call.isSetPdTarget : Call α → Bool
  | .setPdTarget _ _ => true
  | _ => false

/-! ## Configuration and constants fixed by the constructor -/

/-- Values read once by the constructor: the configuration file, the time steps of the base
class, the body indices returned by `getBodyIdx`, and whether a server exists. -/
structure Config (α : Type) where
  desired_velocity : α
  reward_torque_coeff : α
  reward_velocity_coeff : α
  reward_GRF_coeff : α
  control_dt_ : α
  simulation_dt_ : α
  FR_calf : Nat
  FL_calf : Nat
  RR_calf : Nat
  RL_calf : Nat
  server_ : Bool

/-- Generalized coordinate dimension (`15 (w/ fixed HAA joints)`). -/
def gcDim_ : Nat := 15

/-- Degrees of freedom (`14 (w/ fixed HAA joints)`). -/
def gvDim_ : Nat := 14

/-- Number of actuated joints, `gvDim_ - 6`. -/
def nJoints_ : Nat := gvDim_ - 6

/-- Observation dimension. -/
def obDim_ : Nat := 26

/-- Nominal configuration `gc_init_ << 0, 0, 0.46, 1, 0.0, 0.0, 0.0, 0.5, -1, ...`. -/
def gc_init_ [Field α] : List α :=
  [0, 0, 0.46, 1, 0.0, 0.0, 0.0, 0.5, -1, 0.5, -1, 0.5, -1, 0.5, -1]

/-- Nominal velocity `gv_init_.setZero(gvDim_)`. -/
def gv_init_ [Field α] : List α := setZero gvDim_

/-- Action mean `actionMean_ = gc_init_.tail(nJoints_)`. -/
def actionMean_ [Field α] : List α := tail gc_init_ nJoints_

/-- Action scale `actionStd_.setConstant(0.3)` on `actionDim_ = nJoints_` entries. -/
def actionStd_ [Field α] : List α := List.replicate nJoints_ 0.3

/-- Terminal reward `terminalRewardCoeff_ = -10.`. -/
def terminalRewardCoeff_ [Field α] : α := -10

/-- Foot body indices `contact_foot_idx[0..3]`. -/
def Config.contact_foot_idx (cfg : Config α) : List Nat :=
  [cfg.FR_calf, cfg.FL_calf, cfg.RR_calf, cfg.RL_calf]

/-- Set `footIndices_` after the four `insert` calls. -/
def Config.footIndices_ (cfg : Config α) : List Nat :=
  (((([] : List Nat).insert cfg.FR_calf).insert cfg.FL_calf).insert cfg.RR_calf).insert
    cfg.RL_calf

/-! ## Reward accumulator -/

/-- Names of the reward terms in the configuration. -/
inductive RewardName where
  | torque
  | forwardVel_difference
  | GRF_entropy
  deriving DecidableEq

/-- Modelled from the spec: the reward accumulator `rewards_` (class `Reward`, declared in the
base header `RaisimGymEnv.hpp`, lies outside `Environment.hpp`).  It holds one stored value
per configured term; `record` stores the recorded value times the configured coefficient of
that term, `sum` adds the stored values. -/
structure Reward (α : Type) where
  torque : α
  forwardVel_difference : α
  GRF_entropy : α

/-- Modelled from the spec: coefficient of a term, as configured. -/
def Config.coeff (cfg : Config α) : RewardName → α
  | .torque => cfg.reward_torque_coeff
  | .forwardVel_difference => cfg.reward_velocity_coeff
  | .GRF_entropy => cfg.reward_GRF_coeff

/-- Modelled from the spec: `rewards_.record(name, value)`. -/
def Reward.record [Mul α] (cfg : Config α) (r : Reward α) (name : RewardName) (value : α) :
    Reward α :=
  match name with
  | .torque => { r with torque := value * cfg.coeff .torque }
  | .forwardVel_difference =>
      { r with forwardVel_difference := value * cfg.coeff .forwardVel_difference }
  | .GRF_entropy => { r with GRF_entropy := value * cfg.coeff .GRF_entropy }

/-- Modelled from the spec: `rewards_.sum()`. -/
def Reward.sum [Add α] (r : Reward α) : α := r.torque + r.forwardVel_difference + r.GRF_entropy

/-! ## The environment -/

/-- Mutable members of `ENVIRONMENT` together with the mechanism they drive. -/
structure ENVIRONMENT (α : Type) where
  world : World α
  gc_ : List α
  gv_ : List α
  pTarget_ : List α
  pTarget12_ : List α
  vTarget_ : List α
  obDouble_ : List α
  bodyLinearVel_ : List α
  bodyAngularVel_ : List α
  single_contact_impulse : List α
  total_contact_impulse : List α
  GRF_entropy : α
  reward_log : List α
  rewards_ : Reward α

/-- State left by the constructor.  `GRF_entropy`, `bodyLinearVel_` and `bodyAngularVel_`
are not given a value there; what they hold is an input (`entropy0`, `lin0`, `ang0`). -/
def construct [Field α] (w : World α) (entropy0 : α) (lin0 ang0 : List α) : ENVIRONMENT α :=
  { world := w
    gc_ := setZero gcDim_
    gv_ := setZero gvDim_
    pTarget_ := setZero gcDim_
    pTarget12_ := setZero nJoints_
    vTarget_ := setZero gvDim_
    obDouble_ := setZero obDim_
    bodyLinearVel_ := lin0
    bodyAngularVel_ := ang0
    single_contact_impulse := []
    total_contact_impulse := []
    GRF_entropy := entropy0
    reward_log := []
    rewards_ := ⟨0, 0, 0⟩ }

/-- Lines 177-179: normalise the per-foot impulses, add `1e-6` to every entry, and take
`-(p * log p).sum()`.  Returns the new per-foot vector and the entropy. -/
def grfEntropy [LinearOrderedField α] (L : MathLib α) (v : List α) : List α × α :=
  let n := normalize L v
  let p := n.map (fun x => x + 1e-6)
  (p, -((p.map fun x => x * L.log x).sum))

/-- Inner loop `for (int i; i<4; i++)` of `updateObservation`, started at `i`:
`if (contact_foot_idx[i] == body) total_contact_impulse[i] = single_contact_impulse[-1]`.
`k` counts the iterations left (`4 - i`). -/
def footLoop (idx : List Nat) (body : Nat) (r : α) : Nat → Nat → List α → List α
  | 0, _, total => total
  | k + 1, i, total =>
      footLoop idx body r k (i + 1) (if idx.getD i 0 = body then total.set i r else total)

/-- Body of the contact loop of `updateObservation` for one contact. -/
def contactStep [LinearOrderedField α] (L : MathLib α) (cfg : Config α)
    (s : ENVIRONMENT α) (c : Contact α) : ENVIRONMENT α :=
  if c.skip then s
  else
    let single := transposeMul c.frame c.impulse
    let total := footLoop cfg.contact_foot_idx c.localBodyIndex c.readBack
      (4 - c.loopStart) c.loopStart s.total_contact_impulse
    let pe := grfEntropy L total
    { s with single_contact_impulse := single, total_contact_impulse := pe.1,
             GRF_entropy := pe.2 }

/-- Method `updateObservation()`. -/
def updateObservation [LinearOrderedField α] (L : MathLib α) (cfg : Config α)
    (s : ENVIRONMENT α) : ENVIRONMENT α :=
  let gc := s.world.gc
  let gv := s.world.gv
  let rot := L.quatToRotMat [at_ gc 3, at_ gc 4, at_ gc 5, at_ gc 6]
  let lin := transposeMul rot (segment gv 0 3)
  let ang := transposeMul rot (segment gv 3 3)
  let ob := commaInit s.obDouble_ ([at_ gc 2] ++ row2 rot ++ tail gc 8 ++ lin ++ ang ++ tail gv 8)
  let s1 : ENVIRONMENT α :=
    { s with gc_ := gc, gv_ := gv, bodyLinearVel_ := lin, bodyAngularVel_ := ang,
             obDouble_ := ob, total_contact_impulse := setZero 4 }
  s.world.contacts.foldl (contactStep L cfg) s1

/-- Method `reset()`. -/
def reset [LinearOrderedField α] (L : MathLib α) (cfg : Config α) (s : ENVIRONMENT α) :
    ENVIRONMENT α :=
  updateObservation L cfg { s with world := s.world.setState gc_init_ gv_init_ }

/-- Method `observe(ob)`: the observation handed to the caller. -/
def observe (s : ENVIRONMENT α) : List α := s.obDouble_

/-- Conversion `int(x)` of a floating value: truncation toward zero (the conversion is
defined for values within the range of `int`). -/
def toInt [LinearOrderedField α] [FloorRing α] (x : α) : Int :=
  if 0 ≤ x then Int.floor x else Int.ceil x

/-- Bound of the integration loop, `int(control_dt_ / simulation_dt_ + 1e-10)`. -/
def loopBound [LinearOrderedField α] [FloorRing α] (cfg : Config α) : Int :=
  toInt (cfg.control_dt_ / cfg.simulation_dt_ + 1e-10)

/-- Loop `for(int i=0; i< bound; i++)` of `step`, with `k` iterations left: each iteration
locks the server mutex when a server exists, integrates once, and unlocks. -/
def integrateLoop (integrate : World α → World α) (server : Bool) :
    Nat → World α × List (Call α) → World α × List (Call α)
  | 0, st => st
  | k + 1, (w, calls) =>
      integrateLoop integrate server k
        (integrate w,
          calls ++ (if server then [Call.lockVisualizationServerMutex] else []) ++
            [Call.integrate] ++ (if server then [Call.unlockVisualizationServerMutex] else []))

/-- Velocity term of line 126: `std::exp(- std::abs(bodyLinearVel_[0] - desired_velocity))`. -/
def forwardVelDifference [LinearOrderedField α] (L : MathLib α) (cfg : Config α)
    (s : ENVIRONMENT α) : α :=
  L.exp (-|at_ s.bodyLinearVel_ 0 - cfg.desired_velocity|)

/-- Integer nearest to `x`, a tie going to the even neighbour (the rounding rule of
binary64 arithmetic). -/
def roundEven [LinearOrderedField α] [FloorRing α] (x : α) : Int :=
  if 2 * Int.fract x < 1 then Int.floor x
  else if 1 < 2 * Int.fract x then Int.ceil x
  else if Int.floor x % 2 = 0 then Int.floor x else Int.ceil x

/-- Spacing of the `double` values around `x`: `2 ^ (e - 52)` with `e` the binary exponent
of `x`, which does not go below `-1022` (subnormal range). -/
def ulp [LinearOrderedField α] [FloorRing α] (x : α) : α :=
  (2 : α) ^ (max (Int.log 2 |x|) (-1022) - 52)

/-- The `double` nearest to the exact value `x` (round to nearest, ties to even), for `x`
within the range of `double`. -/
def roundDouble [LinearOrderedField α] [FloorRing α] (x : α) : α :=
  (roundEven (x / ulp x) : α) * ulp x

/-- Velocity term of line 126 as `double` arithmetic computes it from finite values
`vx = bodyLinearVel_[0]` and `vd = desired_velocity`: the subtraction returns the `double`
nearest to the exact difference, `std::abs` and the negation are exact, and `std::exp` is
taken to return the `double` nearest to the exact exponential. -/
def forwardVelDifferenceDouble [LinearOrderedField α] [FloorRing α] (L : MathLib α)
    (vx vd : α) : α :=
  roundDouble (L.exp (-|roundDouble (vx - vd)|))

/-- Calls issued by one iteration of the integration loop. -/
def fineStepCalls (server : Bool) : List (Call α) :=
  (if server then [Call.lockVisualizationServerMutex] else []) ++
    [Call.integrate] ++ (if server then [Call.unlockVisualizationServerMutex] else [])

/-- Calls issued by `k` iterations of the integration loop. -/
def fineStepsCalls (server : Bool) : Nat → List (Call α)
  | 0 => []
  | k + 1 => fineStepCalls server ++ fineStepsCalls server k

/-- Result of `step`: the new state, the returned reward, and the calls issued in order. -/
structure StepResult (α : Type) where
  env : ENVIRONMENT α
  reward : α
  calls : List (Call α)

/-- Method `step(action)`. -/
def step [LinearOrderedField α] [FloorRing α] (L : MathLib α) (cfg : Config α)
    (integrate : World α → World α) (s : ENVIRONMENT α) (action : List α) : StepResult α :=
  let p12 := addAssign (cwiseProduct action actionStd_) actionMean_
  let pT := assignTail s.pTarget_ nJoints_ p12
  let w1 := s.world.setPdTarget pT s.vTarget_
  let wc := integrateLoop integrate cfg.server_ (loopBound cfg).toNat
    (w1, [Call.setPdTarget pT s.vTarget_])
  let s1 := updateObservation L cfg { s with pTarget12_ := p12, pTarget_ := pT, world := wc.1 }
  let r1 := s1.rewards_.record cfg .torque (squaredNorm s1.world.generalizedForce)
  let r2 := r1.record cfg .forwardVel_difference (forwardVelDifference L cfg s1)
  let r3 := r2.record cfg .GRF_entropy s1.GRF_entropy
  { env := { s1 with rewards_ := r3 }, reward := r3.sum, calls := wc.2 }

/-- Method `reward_logging(rewards)`: the three entries written to `rewards`. -/
def reward_logging [LinearOrderedField α] (cfg : Config α) (s : ENVIRONMENT α) : List α :=
  let log0 : List α := setZero 3
  let log1 := log0.set 0 (squaredNorm s.world.generalizedForce * cfg.reward_torque_coeff)
  let log2 := log1.set 1
    (-|at_ s.bodyLinearVel_ 0 - cfg.desired_velocity| * cfg.reward_velocity_coeff)
  log2.set 2 (s.GRF_entropy * cfg.reward_GRF_coeff)

/-- Loop of `isTerminalState` over the contacts: `true` at the first contact whose body is
not in `footIndices_`. -/
def anyNonFoot (footIndices : List Nat) : List (Contact α) → Bool
  | [] => false
  | c :: cs => if c.localBodyIndex ∈ footIndices then anyNonFoot footIndices cs else true

/-- Method `isTerminalState(terminalReward)`: the returned flag and the value left in
`terminalReward`. -/
def isTerminalState [Field α] (footIndices : List Nat) (s : ENVIRONMENT α) : Bool × α :=
  let terminalReward : α := terminalRewardCoeff_
  if anyNonFoot footIndices s.world.contacts then (true, terminalReward)
  else (false, 0)

/-- Calls of the training loop that change the environment. -/
inductive Op (α : Type) where
  | step (action : List α)
  | reset

/-- Environment after one call of the training loop. -/
def runOp [LinearOrderedField α] [FloorRing α] (L : MathLib α) (cfg : Config α)
    (integrate : World α → World α) (s : ENVIRONMENT α) : Op α → ENVIRONMENT α
  | .step a => (step L cfg integrate s a).env
  | .reset => reset L cfg s

/-- Environment after a sequence of calls. -/
def runOps [LinearOrderedField α] [FloorRing α] (L : MathLib α) (cfg : Config α)
    (integrate : World α → World α) (s : ENVIRONMENT α) (ops : List (Op α)) : ENVIRONMENT α :=
  ops.foldl (runOp L cfg integrate) s

/-! ## Real-number instance and sample data -/

/-- Rotation matrix of a quaternion `(w, x, y, z)`, the usual formula behind the engine
function `raisim::quatToRotMat`; it instantiates `MathLib.quatToRotMat` in the examples. -/
def quatToRotMat [Field α] (q : List α) : Fin 3 → Fin 3 → α := fun i j =>
  let w := at_ q 0
  let x := at_ q 1
  let y := at_ q 2
  let z := at_ q 3
  match i, j with
  | 0, 0 => w * w + x * x - y * y - z * z
  | 0, 1 => 2 * x * y - 2 * w * z
  | 0, 2 => 2 * w * y + 2 * x * z
  | 1, 0 => 2 * w * z + 2 * x * y
  | 1, 1 => w * w - x * x + y * y - z * z
  | 1, 2 => 2 * y * z - 2 * w * x
  | 2, 0 => 2 * x * z - 2 * w * y
  | 2, 1 => 2 * w * x + 2 * y * z
  | 2, 2 => w * w - x * x - y * y + z * z

/-- The library functions over the reals. -/
noncomputable def realLib : MathLib ℝ :=
  { exp := Real.exp, log := Real.log, sqrt := Real.sqrt, quatToRotMat := quatToRotMat }

/-- A mechanism in the nominal pose with the given base velocity, generalized force and
contacts. -/
def sampleWorld [Field α] (vx : α) (force : List α) (contacts : List (Contact α)) : World α :=
  { gc := gc_init_, gv := vx :: setZero 13, generalizedForce := force, contacts := contacts,
    pdPosition := setZero gcDim_, pdVelocity := setZero gvDim_ }

/-- A mechanism whose base is turned by the unit quaternion `(0.5, 0.5, 0.5, 0.5)`, moving
with base velocity `(1, 2, 3)`, angular velocity `(4, 5, 6)` and joint velocities 7 to 14. -/
def turnedWorld [Field α] : World α :=
  { gc := [0, 0, 0.46, 0.5, 0.5, 0.5, 0.5, 0.5, -1, 0.5, -1, 0.5, -1, 0.5, -1],
    gv := [1, 2, 3, 4, 5, 6, 7, 8, 9, 10, 11, 12, 13, 14],
    generalizedForce := setZero gvDim_, contacts := [],
    pdPosition := setZero gcDim_, pdVelocity := setZero gvDim_ }

/-- A configuration with the given desired velocity, coefficients and time steps; the feet
are bodies 2, 4, 6, 8 and there is no server. -/
def sampleConfig (vd tc vc ec cdt sdt : α) : Config α :=
  { desired_velocity := vd, reward_torque_coeff := tc, reward_velocity_coeff := vc,
    reward_GRF_coeff := ec, control_dt_ := cdt, simulation_dt_ := sdt,
    FR_calf := 2, FL_calf := 4, RR_calf := 6, RL_calf := 8, server_ := false }

/-- A contact on body `body` with identity frame and the given flag and values. -/
def sampleContact [Field α] (skip : Bool) (body : Nat) (r : α) : Contact α :=
  { skip := skip, localBodyIndex := body, frame := fun i j => if i = j then 1 else 0,
    impulse := [0, 0, r], loopStart := 0, readBack := r }

/-! ## Frame lemmas -/

theorem foldl_contactStep_frame [LinearOrderedField α] (L : MathLib α) (cfg : Config α)
    (cs : List (Contact α)) (s : ENVIRONMENT α) :
    (cs.foldl (contactStep L cfg) s).world = s.world ∧
    (cs.foldl (contactStep L cfg) s).pTarget_ = s.pTarget_ ∧
    (cs.foldl (contactStep L cfg) s).vTarget_ = s.vTarget_ ∧
    (cs.foldl (contactStep L cfg) s).obDouble_ = s.obDouble_ ∧
    (cs.foldl (contactStep L cfg) s).bodyLinearVel_ = s.bodyLinearVel_ ∧
    (cs.foldl (contactStep L cfg) s).rewards_ = s.rewards_ := by
  induction cs generalizing s with
  | nil => simp
  | cons c cs ih =>
    have h := ih (contactStep L cfg s c)
    simp only [List.foldl_cons]
    by_cases hc : c.skip = true
    · simpa [contactStep, hc] using h
    · simpa [contactStep, hc] using h

theorem updateObservation_frame [LinearOrderedField α] (L : MathLib α) (cfg : Config α)
    (s : ENVIRONMENT α) :
    (updateObservation L cfg s).world = s.world ∧
    (updateObservation L cfg s).pTarget_ = s.pTarget_ ∧
    (updateObservation L cfg s).vTarget_ = s.vTarget_ ∧
    (updateObservation L cfg s).rewards_ = s.rewards_ := by
  obtain ⟨h1, h2, h3, -, -, h6⟩ := foldl_contactStep_frame L cfg s.world.contacts
    { s with gc_ := s.world.gc, gv_ := s.world.gv,
             bodyLinearVel_ := transposeMul
               (L.quatToRotMat [at_ s.world.gc 3, at_ s.world.gc 4, at_ s.world.gc 5,
                 at_ s.world.gc 6]) (segment s.world.gv 0 3),
             bodyAngularVel_ := transposeMul
               (L.quatToRotMat [at_ s.world.gc 3, at_ s.world.gc 4, at_ s.world.gc 5,
                 at_ s.world.gc 6]) (segment s.world.gv 3 3),
             obDouble_ := commaInit s.obDouble_
               ([at_ s.world.gc 2] ++
                 row2 (L.quatToRotMat [at_ s.world.gc 3, at_ s.world.gc 4, at_ s.world.gc 5,
                   at_ s.world.gc 6]) ++ tail s.world.gc 8 ++
                 transposeMul (L.quatToRotMat [at_ s.world.gc 3, at_ s.world.gc 4,
                   at_ s.world.gc 5, at_ s.world.gc 6]) (segment s.world.gv 0 3) ++
                 transposeMul (L.quatToRotMat [at_ s.world.gc 3, at_ s.world.gc 4,
                   at_ s.world.gc 5, at_ s.world.gc 6]) (segment s.world.gv 3 3) ++
                 tail s.world.gv 8),
             total_contact_impulse := setZero 4 }
  exact ⟨h1, h2, h3, h6⟩

theorem integrateLoop_eq (integrate : World α → World α) (server : Bool) (k : Nat)
    (w : World α) (calls : List (Call α)) :
    integrateLoop integrate server k (w, calls) =
      (integrate^[k] w, calls ++ fineStepsCalls server k) := by
  induction k generalizing w calls with
  | zero => simp [integrateLoop, fineStepsCalls]
  | succ k ih =>
    simp [integrateLoop, fineStepsCalls, fineStepCalls, ih, List.append_assoc]

theorem countP_fineStepsCalls (server : Bool) (k : Nat) :
    (fineStepsCalls server k : List (Call α)).countP Call.isIntegrate = k ∧
    (fineStepsCalls server k : List (Call α)).countP Call.isSetPdTarget = 0 := by
  induction k with
  | zero => simp [fineStepsCalls]
  | succ k ih =>
    cases server <;>
      simp [fineStepsCalls, fineStepCalls, List.countP_append, List.countP_cons,
        Call.isIntegrate, Call.isSetPdTarget, ih]

/-! ## Action scaling -/

theorem scaled_action_eq [LinearOrderedField α] (action : List α)
    (ha : action.length = nJoints_) :
    addAssign (cwiseProduct action actionStd_) actionMean_ =
      (List.range nJoints_).map
        (fun i => at_ (actionMean_ : List α) i + at_ action i * at_ (actionStd_ : List α) i) := by
  rcases action with _ | ⟨a0, _ | ⟨a1, _ | ⟨a2, _ | ⟨a3, _ | ⟨a4, _ | ⟨a5, _ | ⟨a6, _ |
    ⟨a7, _ | ⟨a8, t⟩⟩⟩⟩⟩⟩⟩⟩⟩ <;> simp [nJoints_, gvDim_] at ha
  simp [addAssign, cwiseProduct, actionStd_, actionMean_, tail, gc_init_, nJoints_, gvDim_,
    at_, List.range, List.range.loop, add_comm]

theorem step_targets [LinearOrderedField α] [FloorRing α] (L : MathLib α) (cfg : Config α)
    (integrate : World α → World α) (s : ENVIRONMENT α) (action : List α) :
    (step L cfg integrate s action).env.pTarget_ =
      assignTail s.pTarget_ nJoints_ (addAssign (cwiseProduct action actionStd_) actionMean_) ∧
    (step L cfg integrate s action).env.vTarget_ = s.vTarget_ := by
  simp only [step]
  constructor
  · rw [(updateObservation_frame L cfg _).2.1]
  · rw [(updateObservation_frame L cfg _).2.2.1]

theorem step_calls [LinearOrderedField α] [FloorRing α] (L : MathLib α) (cfg : Config α)
    (integrate : World α → World α) (s : ENVIRONMENT α) (action : List α) :
    (step L cfg integrate s action).calls =
      Call.setPdTarget
          (assignTail s.pTarget_ nJoints_
            (addAssign (cwiseProduct action actionStd_) actionMean_)) s.vTarget_ ::
        fineStepsCalls cfg.server_ (loopBound cfg).toNat := by
  simp [step, integrateLoop_eq]

theorem assignTail_inv [LinearOrderedField α] (p : List α) (action : List α)
    (ha : action.length = nJoints_) (hlen : p.length = gcDim_)
    (hzero : p.take (gcDim_ - nJoints_) = List.replicate (gcDim_ - nJoints_) 0) :
    assignTail p nJoints_ (addAssign (cwiseProduct action actionStd_) actionMean_) =
      List.replicate (gcDim_ - nJoints_) 0 ++
        (List.range nJoints_).map
          (fun i => at_ (actionMean_ : List α) i + at_ action i * at_ (actionStd_ : List α) i) := by
  rw [scaled_action_eq action ha, assignTail, hlen, hzero]

theorem runOps_targets [LinearOrderedField α] [FloorRing α] (L : MathLib α) (cfg : Config α)
    (integrate : World α → World α) (ops : List (Op α)) (s : ENVIRONMENT α)
    (hops : ∀ a, Op.step a ∈ ops → a.length = nJoints_)
    (hlen : s.pTarget_.length = gcDim_)
    (hzero : s.pTarget_.take (gcDim_ - nJoints_) = List.replicate (gcDim_ - nJoints_) 0)
    (hv : s.vTarget_ = List.replicate gvDim_ 0) :
    (runOps L cfg integrate s ops).pTarget_.length = gcDim_ ∧
    (runOps L cfg integrate s ops).pTarget_.take (gcDim_ - nJoints_) =
      List.replicate (gcDim_ - nJoints_) 0 ∧
    (runOps L cfg integrate s ops).vTarget_ = List.replicate gvDim_ 0 := by
  induction ops generalizing s with
  | nil => exact ⟨hlen, hzero, hv⟩
  | cons op ops ih =>
    simp only [runOps, List.foldl_cons]
    have hops2 : ∀ a, Op.step a ∈ ops → a.length = nJoints_ :=
      fun a h => hops a (List.mem_cons_of_mem _ h)
    cases op with
    | step a =>
      have ha : a.length = nJoints_ := hops a (List.mem_cons_self _ _)
      obtain ⟨hp, hvt⟩ := step_targets L cfg integrate s a
      have hp2 := assignTail_inv s.pTarget_ a ha hlen hzero
      apply ih (step L cfg integrate s a).env hops2
      · rw [hp, hp2]; simp [gcDim_, nJoints_, gvDim_]
      · rw [hp, hp2]; simp [gcDim_, nJoints_, gvDim_]
      · rw [hvt, hv]
    | reset =>
      obtain ⟨-, hp, hvt, -⟩ := updateObservation_frame L cfg
        { s with world := s.world.setState gc_init_ gv_init_ }
      apply ih (reset L cfg s) hops2
      · simp only [reset]; rw [hp]; exact hlen
      · simp only [reset]; rw [hp]; exact hzero
      · simp only [reset]; rw [hvt]; exact hv

/-- C2: after any sequence of earlier `step` and `reset` calls on a constructed environment,
`step` with an action of length `nJoints_` first calls `setPdTarget` with a position target
whose first `gcDim_ - nJoints_` entries are zero and whose last `nJoints_` entries are
`actionMean_[i] + action[i] * actionStd_[i]`, with `actionStd_[i] = 0.3` and `actionMean_`
the joint part of the nominal pose, and with the all-zero velocity target. -/
theorem step_setPdTarget [LinearOrderedField α] [FloorRing α] (L : MathLib α) (cfg : Config α)
    (integrate : World α → World α) (w : World α) (entropy0 : α) (lin0 ang0 : List α)
    (ops : List (Op α)) (action : List α)
    (hops : ∀ a, Op.step a ∈ ops → a.length = nJoints_)
    (ha : action.length = nJoints_) :
    (step L cfg integrate (runOps L cfg integrate (construct w entropy0 lin0 ang0) ops)
        action).calls.head? =
      some (Call.setPdTarget
        (List.replicate (gcDim_ - nJoints_) 0 ++
          (List.range nJoints_).map
            (fun i => at_ (actionMean_ : List α) i + at_ action i * at_ (actionStd_ : List α) i))
        (List.replicate gvDim_ 0)) ∧
    (actionStd_ : List α) = List.replicate nJoints_ 0.3 ∧
    (actionMean_ : List α) = tail gc_init_ nJoints_ ∧
    (actionMean_ : List α) = [0.5, -1, 0.5, -1, 0.5, -1, 0.5, -1] := by
  obtain ⟨hlen, hzero, hv⟩ := runOps_targets L cfg integrate ops
    (construct w entropy0 lin0 ang0) hops
    (by simp [construct, setZero]) (by simp [construct, setZero, gcDim_, nJoints_, gvDim_])
    (by simp [construct, setZero])
  refine ⟨?_, rfl, rfl, ?_⟩
  · rw [step_calls, assignTail_inv _ action ha hlen hzero, hv]
    rfl
  · simp [actionMean_, tail, gc_init_, nJoints_, gvDim_]

/-- Witness for the C2 theorem: a step and a reset happen before the step observed. -/
theorem step_setPdTarget_witness :
    (∀ a, Op.step a ∈ [Op.step [1, 0, 0, 0, 0, 0, 0, (2 : ℝ)], Op.reset] →
      a.length = nJoints_) ∧
    ([10, 0, 0, 0, 0, 0, 0, (-10 : ℝ)] : List ℝ).length = nJoints_ ∧
    (step realLib (sampleConfig 1 (-1) 1 1 0.01 0.001) id
        (runOps realLib (sampleConfig 1 (-1) 1 1 0.01 0.001) id
          (construct (sampleWorld (1 : ℝ) (setZero 14) []) 0 [] [])
          [Op.step [1, 0, 0, 0, 0, 0, 0, 2], Op.reset])
        [10, 0, 0, 0, 0, 0, 0, -10]).calls.head? =
      some (Call.setPdTarget
        (List.replicate (gcDim_ - nJoints_) 0 ++
          (List.range nJoints_).map
            (fun i => at_ (actionMean_ : List ℝ) i +
              at_ [10, 0, 0, 0, 0, 0, 0, -10] i * at_ (actionStd_ : List ℝ) i))
        (List.replicate gvDim_ 0)) :=
  ⟨by simp [nJoints_, gvDim_], by simp [nJoints_, gvDim_],
    (step_setPdTarget realLib (sampleConfig 1 (-1) 1 1 0.01 0.001) id
      (sampleWorld (1 : ℝ) (setZero 14) []) 0 [] []
      [Op.step [1, 0, 0, 0, 0, 0, 0, 2], Op.reset] [10, 0, 0, 0, 0, 0, 0, -10]
      (by simp [nJoints_, gvDim_]) (by simp [nJoints_, gvDim_])).1⟩

/-! ## Observation -/

theorem updateObservation_obDouble_raw [LinearOrderedField α] (L : MathLib α) (cfg : Config α)
    (s : ENVIRONMENT α) :
    (updateObservation L cfg s).obDouble_ =
      commaInit s.obDouble_
        ([at_ s.world.gc 2] ++
          row2 (L.quatToRotMat [at_ s.world.gc 3, at_ s.world.gc 4, at_ s.world.gc 5,
            at_ s.world.gc 6]) ++ tail s.world.gc 8 ++
          transposeMul (L.quatToRotMat [at_ s.world.gc 3, at_ s.world.gc 4,
            at_ s.world.gc 5, at_ s.world.gc 6]) (segment s.world.gv 0 3) ++
          transposeMul (L.quatToRotMat [at_ s.world.gc 3, at_ s.world.gc 4,
            at_ s.world.gc 5, at_ s.world.gc 6]) (segment s.world.gv 3 3) ++
          tail s.world.gv 8) := by
  simp only [updateObservation]
  rw [(foldl_contactStep_frame L cfg _ _).2.2.2.1]

theorem updateObservation_obDouble_eq [LinearOrderedField α] (L : MathLib α) (cfg : Config α)
    (s : ENVIRONMENT α) (hgc : s.world.gc.length = gcDim_) (hgv : s.world.gv.length = gvDim_)
    (hob : s.obDouble_.length = obDim_) :
    (updateObservation L cfg s).obDouble_ =
      [at_ s.world.gc 2,
       L.quatToRotMat [at_ s.world.gc 3, at_ s.world.gc 4, at_ s.world.gc 5,
         at_ s.world.gc 6] 2 0,
       L.quatToRotMat [at_ s.world.gc 3, at_ s.world.gc 4, at_ s.world.gc 5,
         at_ s.world.gc 6] 2 1,
       L.quatToRotMat [at_ s.world.gc 3, at_ s.world.gc 4, at_ s.world.gc 5,
         at_ s.world.gc 6] 2 2,
       at_ s.world.gc 7, at_ s.world.gc 8, at_ s.world.gc 9, at_ s.world.gc 10,
       at_ s.world.gc 11, at_ s.world.gc 12, at_ s.world.gc 13, at_ s.world.gc 14] ++
      transposeMul (L.quatToRotMat [at_ s.world.gc 3, at_ s.world.gc 4, at_ s.world.gc 5,
         at_ s.world.gc 6]) [at_ s.world.gv 0, at_ s.world.gv 1, at_ s.world.gv 2] ++
      transposeMul (L.quatToRotMat [at_ s.world.gc 3, at_ s.world.gc 4, at_ s.world.gc 5,
         at_ s.world.gc 6]) [at_ s.world.gv 3, at_ s.world.gv 4, at_ s.world.gv 5] ++
      [at_ s.world.gv 6, at_ s.world.gv 7, at_ s.world.gv 8, at_ s.world.gv 9,
       at_ s.world.gv 10, at_ s.world.gv 11, at_ s.world.gv 12, at_ s.world.gv 13] := by
  rw [updateObservation_obDouble_raw]
  obtain ⟨w, gc1, gv1, pT, p12, vT, ob, lin, ang, single, total, ent, rlog, rew⟩ := s
  obtain ⟨gc, gv, force, contacts, pdp, pdv⟩ := w
  simp only at hgc hgv hob ⊢
  rcases gc with _ | ⟨g0, _ | ⟨g1, _ | ⟨g2, _ | ⟨g3, _ | ⟨g4, _ | ⟨g5, _ | ⟨g6, _ | ⟨g7, _ |
    ⟨g8, _ | ⟨g9, _ | ⟨g10, _ | ⟨g11, _ | ⟨g12, _ | ⟨g13, _ | ⟨g14, _ | ⟨g15, t⟩⟩⟩⟩⟩⟩⟩⟩⟩⟩⟩⟩⟩⟩⟩⟩ <;>
    simp [gcDim_] at hgc
  rcases gv with _ | ⟨v0, _ | ⟨v1, _ | ⟨v2, _ | ⟨v3, _ | ⟨v4, _ | ⟨v5, _ | ⟨v6, _ | ⟨v7, _ |
    ⟨v8, _ | ⟨v9, _ | ⟨v10, _ | ⟨v11, _ | ⟨v12, _ | ⟨v13, _ | ⟨v14, t⟩⟩⟩⟩⟩⟩⟩⟩⟩⟩⟩⟩⟩⟩⟩ <;>
    simp [gvDim_] at hgv
  simp [commaInit, hob, obDim_, tail, segment, transposeMul, row2, at_]

/-- C5: for generalized coordinates `gc` of length 15 and velocities `gv` of length 14, with
`R` the matrix that `quatToRotMat` returns for the quaternion `gc[3..6]`, `updateObservation`
replaces the observation (the 26-entry buffer of the constructor) by exactly these 26
entries: `gc[2]`; the third row of `R`; `gc[7..14]`; `R^T * gv[0..2]`, whose entry `j` is
`R[0][j]*gv[0] + R[1][j]*gv[1] + R[2][j]*gv[2]`; `R^T * gv[3..5]`; `gv[6..13]`.  A state that
has the same mechanism and any other previous observation gets the same observation. -/
theorem updateObservation_observation [LinearOrderedField α] (L : MathLib α) (cfg : Config α)
    (s : ENVIRONMENT α) (R : Fin 3 → Fin 3 → α) (hgc : s.world.gc.length = 15)
    (hgv : s.world.gv.length = 14) (hob : s.obDouble_.length = obDim_)
    (hR : R = L.quatToRotMat
      [at_ s.world.gc 3, at_ s.world.gc 4, at_ s.world.gc 5, at_ s.world.gc 6]) :
    (updateObservation L cfg s).obDouble_ =
      [at_ s.world.gc 2,
       R 2 0, R 2 1, R 2 2,
       at_ s.world.gc 7, at_ s.world.gc 8, at_ s.world.gc 9, at_ s.world.gc 10,
       at_ s.world.gc 11, at_ s.world.gc 12, at_ s.world.gc 13, at_ s.world.gc 14,
       R 0 0 * at_ s.world.gv 0 + R 1 0 * at_ s.world.gv 1 + R 2 0 * at_ s.world.gv 2,
       R 0 1 * at_ s.world.gv 0 + R 1 1 * at_ s.world.gv 1 + R 2 1 * at_ s.world.gv 2,
       R 0 2 * at_ s.world.gv 0 + R 1 2 * at_ s.world.gv 1 + R 2 2 * at_ s.world.gv 2,
       R 0 0 * at_ s.world.gv 3 + R 1 0 * at_ s.world.gv 4 + R 2 0 * at_ s.world.gv 5,
       R 0 1 * at_ s.world.gv 3 + R 1 1 * at_ s.world.gv 4 + R 2 1 * at_ s.world.gv 5,
       R 0 2 * at_ s.world.gv 3 + R 1 2 * at_ s.world.gv 4 + R 2 2 * at_ s.world.gv 5,
       at_ s.world.gv 6, at_ s.world.gv 7, at_ s.world.gv 8, at_ s.world.gv 9,
       at_ s.world.gv 10, at_ s.world.gv 11, at_ s.world.gv 12, at_ s.world.gv 13] ∧
    (updateObservation L cfg s).obDouble_.length = 26 ∧
    (∀ s2 : ENVIRONMENT α, s2.world = s.world → s2.obDouble_.length = obDim_ →
      (updateObservation L cfg s2).obDouble_ = (updateObservation L cfg s).obDouble_) := by
  have h := updateObservation_obDouble_eq L cfg s hgc hgv hob
  refine ⟨?_, ?_, ?_⟩
  · rw [h, hR]; simp [transposeMul, at_]
  · rw [h]; simp [transposeMul]
  · intro s2 hw hob2
    rw [h, updateObservation_obDouble_eq L cfg s2 (by rw [hw]; exact hgc)
      (by rw [hw]; exact hgv) hob2, hw]

/-- Witness for the C5 theorem: the base is turned by the quaternion `(0.5, 0.5, 0.5, 0.5)`,
whose matrix has rows `(0,0,1)`, `(1,0,0)`, `(0,1,0)`, and the previous observation is 26
entries equal to 9.  The world velocities `(1,2,3)` and `(4,5,6)` appear as `(2,3,1)` and
`(5,6,4)`. -/
theorem updateObservation_observation_witness :
    ({ construct (turnedWorld : World ℝ) 0 [] [] with
        obDouble_ := List.replicate 26 9 }).world.gc.length = 15 ∧
    ({ construct (turnedWorld : World ℝ) 0 [] [] with
        obDouble_ := List.replicate 26 9 }).world.gv.length = 14 ∧
    ({ construct (turnedWorld : World ℝ) 0 [] [] with
        obDouble_ := List.replicate 26 9 }).obDouble_.length = obDim_ ∧
    (updateObservation realLib (sampleConfig 1 (-1) 1 1 0.01 0.001)
      { construct (turnedWorld : World ℝ) 0 [] [] with
        obDouble_ := List.replicate 26 9 }).obDouble_ =
      [0.46, 0, 1, 0, 0.5, -1, 0.5, -1, 0.5, -1, 0.5, -1, 2, 3, 1, 5, 6, 4,
       7, 8, 9, 10, 11, 12, 13, 14] := by
  refine ⟨by simp [construct, turnedWorld], by simp [construct, turnedWorld],
    by simp [obDim_], ?_⟩
  rw [(updateObservation_observation realLib (sampleConfig 1 (-1) 1 1 0.01 0.001)
      { construct (turnedWorld : World ℝ) 0 [] [] with obDouble_ := List.replicate 26 9 }
      (realLib.quatToRotMat [0.5, 0.5, 0.5, 0.5])
      (by simp [construct, turnedWorld]) (by simp [construct, turnedWorld])
      (by simp [obDim_]) (by simp [construct, turnedWorld, at_])).1]
  simp [construct, turnedWorld, at_, realLib, quatToRotMat]
  norm_num

theorem reset_obDouble [LinearOrderedField α] (L : MathLib α) (cfg : Config α)
    (s : ENVIRONMENT α) (hob : s.obDouble_.length = obDim_) :
    (reset L cfg s).obDouble_ =
      [0.46, L.quatToRotMat [1, 0, 0, 0] 2 0, L.quatToRotMat [1, 0, 0, 0] 2 1,
       L.quatToRotMat [1, 0, 0, 0] 2 2, 0.5, -1, 0.5, -1, 0.5, -1, 0.5, -1,
       0, 0, 0, 0, 0, 0, 0, 0, 0, 0, 0, 0, 0, 0] := by
  have h := updateObservation_obDouble_eq L cfg
    { s with world := s.world.setState gc_init_ gv_init_ }
    (by simp [World.setState, gc_init_, gcDim_])
    (by simp [World.setState, gv_init_, setZero]) hob
  have h0 : (0.0 : α) = 0 := by norm_num
  simp only [reset]
  rw [h]
  simp [World.setState, gc_init_, gv_init_, setZero, gvDim_, at_, transposeMul, h0]

theorem runOps_obDouble_length [LinearOrderedField α] [FloorRing α] (L : MathLib α)
    (cfg : Config α) (integrate : World α → World α) (ops : List (Op α)) (s : ENVIRONMENT α)
    (hob : s.obDouble_.length = obDim_) :
    (runOps L cfg integrate s ops).obDouble_.length = obDim_ := by
  induction ops generalizing s with
  | nil => exact hob
  | cons op ops ih =>
    simp only [runOps, List.foldl_cons]
    apply ih
    cases op with
    | step a =>
      simp only [runOp, step]
      rw [updateObservation_obDouble_raw]
      simp [commaInit, transposeMul, row2, hob, obDim_]
      omega
    | reset =>
      simp only [runOp]
      rw [reset_obDouble L cfg s hob]
      simp [obDim_]

/-- C8: for any two environment states whose observation buffer has the constructed size 26
(every state reached from the constructor by `step` and `reset` calls has it), `reset`
followed by `observe` yields the same observation, the one built from the nominal pose
`gc_init_` and the zero velocity `gv_init_`: height 0.46, the third row of the rotation
matrix of the quaternion `(1, 0, 0, 0)`, the nominal joint angles, and 14 zeros. -/
theorem reset_observe [LinearOrderedField α] [FloorRing α] (L : MathLib α) (cfg : Config α)
    (s1 s2 : ENVIRONMENT α) (h1 : s1.obDouble_.length = obDim_)
    (h2 : s2.obDouble_.length = obDim_) :
    observe (reset L cfg s1) = observe (reset L cfg s2) ∧
    observe (reset L cfg s1) =
      [0.46, L.quatToRotMat [1, 0, 0, 0] 2 0, L.quatToRotMat [1, 0, 0, 0] 2 1,
       L.quatToRotMat [1, 0, 0, 0] 2 2, 0.5, -1, 0.5, -1, 0.5, -1, 0.5, -1,
       0, 0, 0, 0, 0, 0, 0, 0, 0, 0, 0, 0, 0, 0] ∧
    (∀ (integrate : World α → World α) (w : World α) (entropy0 : α) (lin0 ang0 : List α)
      (ops : List (Op α)),
      (runOps L cfg integrate (construct w entropy0 lin0 ang0) ops).obDouble_.length =
        obDim_) := by
  refine ⟨?_, ?_, ?_⟩
  · simp only [observe]
    rw [reset_obDouble L cfg s1 h1, reset_obDouble L cfg s2 h2]
  · simp only [observe]
    rw [reset_obDouble L cfg s1 h1]
  · intro integrate w entropy0 lin0 ang0 ops
    exact runOps_obDouble_length L cfg integrate ops _ (by simp [construct, setZero])

/-- Witness for the C8 theorem: two constructed environments with different mechanisms and
different entropy values. -/
theorem reset_observe_witness :
    (construct (sampleWorld (1 : ℝ) (setZero 14) []) 0 [] []).obDouble_.length = obDim_ ∧
    (construct (sampleWorld (0 : ℝ) [1] [sampleContact false 0 1]) 5 [] []).obDouble_.length =
      obDim_ ∧
    observe (reset realLib (sampleConfig 1 (-1) 1 1 0.01 0.001)
        (construct (sampleWorld (1 : ℝ) (setZero 14) []) 0 [] [])) =
      observe (reset realLib (sampleConfig 1 (-1) 1 1 0.01 0.001)
        (construct (sampleWorld (0 : ℝ) [1] [sampleContact false 0 1]) 5 [] [])) :=
  ⟨by simp [construct, setZero], by simp [construct, setZero],
    (reset_observe realLib (sampleConfig 1 (-1) 1 1 0.01 0.001)
      (construct (sampleWorld (1 : ℝ) (setZero 14) []) 0 [] [])
      (construct (sampleWorld (0 : ℝ) [1] [sampleContact false 0 1]) 5 [] [])
      (by simp [construct, setZero]) (by simp [construct, setZero])).1⟩

/-! ## Reward -/

theorem step_reward_formula [LinearOrderedField α] [FloorRing α] (L : MathLib α)
    (cfg : Config α) (integrate : World α → World α) (s : ENVIRONMENT α) (action : List α) :
    (step L cfg integrate s action).reward =
      squaredNorm (step L cfg integrate s action).env.world.generalizedForce *
          cfg.reward_torque_coeff +
        forwardVelDifference L cfg (step L cfg integrate s action).env *
          cfg.reward_velocity_coeff +
        (step L cfg integrate s action).env.GRF_entropy * cfg.reward_GRF_coeff := by
  simp [step, Reward.record, Reward.sum, Config.coeff, forwardVelDifference]

theorem squaredNorm_eq_zero [LinearOrderedField α] (v : List α) (h : ∀ x ∈ v, x = 0) :
    squaredNorm v = 0 := by
  induction v with
  | nil => simp [squaredNorm]
  | cons a v ih =>
    have ha : a = 0 := h a (List.mem_cons_self _ _)
    have hv : squaredNorm v = 0 := ih (fun x hx => h x (List.mem_cons_of_mem _ hx))
    simp only [squaredNorm] at hv
    simp [squaredNorm, ha, hv]

/-- C3 (as amended): the reward returned by `step` is
`torqueCoeff * ||force||^2 + velocityCoeff * exp(-|v_x - v_desired|) + entropyCoeff * entropy`
on the post-step state: the squared norm of the force is recorded as it is, without a minus
sign, and the sign of the torque term is the sign of the configured coefficient.  When every
entry of the force is zero the torque term is 0. -/
theorem step_reward_eq [LinearOrderedField α] [FloorRing α] (L : MathLib α) (cfg : Config α)
    (integrate : World α → World α) (s : ENVIRONMENT α) (action : List α) :
    (step L cfg integrate s action).reward =
      cfg.reward_torque_coeff *
          squaredNorm (step L cfg integrate s action).env.world.generalizedForce +
        cfg.reward_velocity_coeff *
          L.exp (-|at_ (step L cfg integrate s action).env.bodyLinearVel_ 0 -
            cfg.desired_velocity|) +
        cfg.reward_GRF_coeff * (step L cfg integrate s action).env.GRF_entropy ∧
    ((∀ x ∈ (step L cfg integrate s action).env.world.generalizedForce, x = 0) →
      cfg.reward_torque_coeff *
        squaredNorm (step L cfg integrate s action).env.world.generalizedForce = 0) := by
  refine ⟨?_, fun h => ?_⟩
  · rw [step_reward_formula]
    simp only [forwardVelDifference]
    ring
  · rw [squaredNorm_eq_zero _ h, mul_zero]

/-- Witness for the amended C3 statement: a resting mechanism with zero generalized force. -/
theorem step_reward_eq_witness :
    (∀ x ∈ (step realLib (sampleConfig 1 (-1) 1 1 0.01 0.001) id
        (construct (sampleWorld 1 (setZero 14) []) 0 [] [])
        [0, 0, 0, 0, 0, 0, 0, 0]).env.world.generalizedForce, x = 0) ∧
    (-1 : ℝ) * squaredNorm (step realLib (sampleConfig 1 (-1) 1 1 0.01 0.001) id
        (construct (sampleWorld 1 (setZero 14) []) 0 [] [])
        [0, 0, 0, 0, 0, 0, 0, 0]).env.world.generalizedForce = 0 := by
  have h : ∀ x ∈ (step realLib (sampleConfig 1 (-1) 1 1 0.01 0.001) id
      (construct (sampleWorld 1 (setZero 14) []) 0 [] [])
      [0, 0, 0, 0, 0, 0, 0, 0]).env.world.generalizedForce, x = 0 := by
    simp [step, integrateLoop_eq, updateObservation, sampleWorld, construct,
      World.setPdTarget, setZero]
  exact ⟨h, (step_reward_eq realLib (sampleConfig 1 (-1) 1 1 0.01 0.001) id
    (construct (sampleWorld 1 (setZero 14) []) 0 [] []) [0, 0, 0, 0, 0, 0, 0, 0]).2 h⟩

/-- C3 (counterexample): with torque coefficient 1, the other coefficients 0 and a
generalized force of squared norm 1, `step` returns 1, not the value
`torqueCoeff * (-||force||^2) + ...` of the claim, which is -1. -/
theorem step_reward_not_negated :
    (step realLib (sampleConfig 0 1 0 0 0.01 0.001) id
        (construct (sampleWorld 0 [0, 0, 0, 0, 0, 0, 1, 0, 0, 0, 0, 0, 0, 0] []) 0 [] [])
        [0, 0, 0, 0, 0, 0, 0, 0]).reward ≠
      (1 : ℝ) * (-(squaredNorm (step realLib (sampleConfig 0 1 0 0 0.01 0.001) id
        (construct (sampleWorld 0 [0, 0, 0, 0, 0, 0, 1, 0, 0, 0, 0, 0, 0, 0] []) 0 [] [])
        [0, 0, 0, 0, 0, 0, 0, 0]).env.world.generalizedForce)) +
      0 * Real.exp (-|at_ (step realLib (sampleConfig 0 1 0 0 0.01 0.001) id
        (construct (sampleWorld 0 [0, 0, 0, 0, 0, 0, 1, 0, 0, 0, 0, 0, 0, 0] []) 0 [] [])
        [0, 0, 0, 0, 0, 0, 0, 0]).env.bodyLinearVel_ 0 - 0|) +
      0 * (step realLib (sampleConfig 0 1 0 0 0.01 0.001) id
        (construct (sampleWorld 0 [0, 0, 0, 0, 0, 0, 1, 0, 0, 0, 0, 0, 0, 0] []) 0 [] [])
        [0, 0, 0, 0, 0, 0, 0, 0]).env.GRF_entropy := by
  rw [step_reward_formula]
  simp [step, integrateLoop_eq, updateObservation, sampleWorld, sampleConfig, construct,
    World.setPdTarget, squaredNorm]
  norm_num

/-- C4 (failing input): desired velocity 1, measured forward velocity 1, zero force, velocity
coefficient 1.  `step` returns 1 (its velocity term is `exp(0) * 1`), while the three
entries of `reward_logging` on the same post-step state are 0, 0, 0 and sum to 0: the
logged velocity entry is `-|v_x - v_desired| * coeff`, without the exponential. -/
theorem reward_logging_differs :
    (step realLib (sampleConfig 1 (-1) 1 1 0.01 0.001) id
        (construct (sampleWorld 1 (setZero 14) []) 0 [] [])
        [0, 0, 0, 0, 0, 0, 0, 0]).reward = 1 ∧
    reward_logging (sampleConfig 1 (-1) 1 1 0.01 0.001)
      (step realLib (sampleConfig 1 (-1) 1 1 0.01 0.001) id
        (construct (sampleWorld 1 (setZero 14) []) 0 [] [])
        [0, 0, 0, 0, 0, 0, 0, 0]).env = [0, 0, 0] ∧
    (reward_logging (sampleConfig 1 (-1) 1 1 0.01 0.001)
      (step realLib (sampleConfig 1 (-1) 1 1 0.01 0.001) id
        (construct (sampleWorld 1 (setZero 14) []) 0 [] [])
        [0, 0, 0, 0, 0, 0, 0, 0]).env).sum = 0 := by
  refine ⟨?_, ?_, ?_⟩
  · rw [step_reward_formula]
    simp [step, integrateLoop_eq, updateObservation, sampleWorld, sampleConfig, construct,
      World.setPdTarget, squaredNorm, setZero, forwardVelDifference, transposeMul, segment,
      at_, realLib, quatToRotMat, gc_init_]
    norm_num
  · simp [reward_logging, step, integrateLoop_eq, updateObservation, sampleWorld,
      sampleConfig, construct, World.setPdTarget, squaredNorm, setZero, transposeMul, segment,
      at_, realLib, quatToRotMat, gc_init_]
    norm_num
  · simp [reward_logging, step, integrateLoop_eq, updateObservation, sampleWorld,
      sampleConfig, construct, World.setPdTarget, squaredNorm, setZero, transposeMul, segment,
      at_, realLib, quatToRotMat, gc_init_]
    norm_num

/-- In exact real arithmetic the velocity term `exp(-|v_x - v_desired|)` is positive and at
most 1, and it is 1 exactly when the measured forward velocity equals the desired one. -/
theorem forwardVelDifference_range (cfg : Config ℝ) (s : ENVIRONMENT ℝ) :
    0 < forwardVelDifference realLib cfg s ∧ forwardVelDifference realLib cfg s ≤ 1 ∧
    (forwardVelDifference realLib cfg s = 1 ↔ at_ s.bodyLinearVel_ 0 = cfg.desired_velocity) ∧
    forwardVelDifference realLib cfg s =
      Real.exp (-|at_ s.bodyLinearVel_ 0 - cfg.desired_velocity|) := by
  refine ⟨?_, ?_, ?_, rfl⟩
  · exact Real.exp_pos _
  · simp only [forwardVelDifference, realLib]
    rw [Real.exp_le_one_iff]
    simp
  · simp only [forwardVelDifference, realLib]
    rw [Real.exp_eq_one_iff]
    simp [sub_eq_zero]

/-! ## Velocity term in double arithmetic -/

theorem ulp_pos [LinearOrderedField α] [FloorRing α] (x : α) : 0 < ulp x := by
  unfold ulp; positivity

theorem roundEven_intCast [LinearOrderedField α] [FloorRing α] (n : Int) :
    roundEven (n : α) = n := by
  simp [roundEven]

theorem roundEven_nonneg [LinearOrderedField α] [FloorRing α] (x : α) (hx : 0 ≤ x) :
    0 ≤ roundEven x := by
  have h1 : 0 ≤ Int.floor x := Int.floor_nonneg.mpr hx
  have h2 : 0 ≤ Int.ceil x := Int.ceil_nonneg hx
  unfold roundEven
  split_ifs <;> assumption

theorem roundEven_le [LinearOrderedField α] [FloorRing α] (x : α) (n : Int) (hx : x ≤ n) :
    roundEven x ≤ n := by
  have h2 : Int.ceil x ≤ n := Int.ceil_le.mpr hx
  have h1 : Int.floor x ≤ n := le_trans (Int.floor_le_ceil x) h2
  unfold roundEven
  split_ifs <;> assumption

theorem roundEven_eq_zero [LinearOrderedField α] [FloorRing α] (x : α) (h0 : 0 ≤ x)
    (h1 : 2 * x < 1) : roundEven x = 0 := by
  have hx1 : x < 1 := by linarith
  have hf : Int.floor x = 0 := by
    rw [Int.floor_eq_iff]; constructor <;> simp <;> linarith
  have hfr : Int.fract x = x := Int.fract_eq_iff.mpr ⟨h0, hx1, 0, by simp⟩
  simp [roundEven, hfr, h1, hf]

theorem roundEven_eq_of_close [LinearOrderedField α] [FloorRing α] (x : α) (n : Int)
    (h1 : x ≤ n) (h2 : 2 * ((n : α) - x) < 1) : roundEven x = n := by
  rcases eq_or_lt_of_le h1 with h | h
  · rw [h]; exact roundEven_intCast n
  · have hf : Int.floor x = n - 1 := by
      rw [Int.floor_eq_iff]; push_cast; constructor <;> linarith
    have hc : Int.ceil x = n := by
      rw [Int.ceil_eq_iff]; constructor <;> linarith
    have hfr : Int.fract x = x - ((n : α) - 1) := by
      rw [Int.fract, hf]; push_cast; ring
    have h3 : ¬ 2 * (x - ((n : α) - 1)) < 1 := by linarith
    have h4 : 1 < 2 * (x - ((n : α) - 1)) := by linarith
    simp only [roundEven, hfr, h3, h4, if_false, if_true, hc]

theorem roundDouble_zero [LinearOrderedField α] [FloorRing α] : roundDouble (0 : α) = 0 := by
  simp [roundDouble, roundEven]

theorem roundDouble_of_int [LinearOrderedField α] [FloorRing α] (x : α) (m : Int)
    (h : x / ulp x = (m : α)) : roundDouble x = x := by
  unfold roundDouble
  rw [h, roundEven_intCast, ← h, div_mul_cancel₀ _ (ne_of_gt (ulp_pos x))]

theorem log_abs_nonpos [LinearOrderedField α] [FloorRing α] (y : α) (h0 : 0 ≤ y)
    (h1 : y ≤ 1) : Int.log 2 |y| ≤ 0 := by
  rw [abs_of_nonneg h0]
  rcases eq_or_lt_of_le h0 with h | h
  · rw [← h, Int.log_zero_right]
  · have := Int.log_mono_right (b := 2) h h1
    rwa [Int.log_one_right] at this

theorem roundDouble_unit_range [LinearOrderedField α] [FloorRing α] (y : α) (h0 : 0 ≤ y)
    (h1 : y ≤ 1) : 0 ≤ roundDouble y ∧ roundDouble y ≤ 1 := by
  have hu := ulp_pos y
  have hq : 0 ≤ y / ulp y := div_nonneg h0 hu.le
  constructor
  · unfold roundDouble
    exact mul_nonneg (by exact_mod_cast roundEven_nonneg _ hq) hu.le
  · have he : max (Int.log 2 |y|) (-1022) - 52 ≤ 0 := by
      have := log_abs_nonpos y h0 h1
      have h2 : max (Int.log 2 |y|) (-1022) ≤ 0 := max_le this (by norm_num)
      omega
    obtain ⟨k, hk⟩ : ∃ k : ℕ, max (Int.log 2 |y|) (-1022) - 52 = -(k : ℤ) :=
      ⟨(-(max (Int.log 2 |y|) (-1022) - 52)).toNat, by omega⟩
    have hulp : ulp y = ((2 : α) ^ k)⁻¹ := by
      unfold ulp; rw [hk, zpow_neg, zpow_natCast]
    have hle : y / ulp y ≤ (((2 : ℤ) ^ k : ℤ) : α) := by
      rw [hulp, div_inv_eq_mul]
      push_cast
      have hp : (0 : α) < 2 ^ k := by positivity
      nlinarith
    have hr := roundEven_le _ _ hle
    have hr2 : (roundEven (y / ulp y) : α) ≤ (2 : α) ^ k := by exact_mod_cast hr
    unfold roundDouble
    calc (roundEven (y / ulp y) : α) * ulp y ≤ (2 : α) ^ k * ulp y :=
          mul_le_mul_of_nonneg_right hr2 hu.le
      _ = 1 := by rw [hulp]; exact mul_inv_cancel₀ (by positivity)

theorem roundDouble_one [LinearOrderedField α] [FloorRing α] : roundDouble (1 : α) = 1 := by
  apply roundDouble_of_int 1 ((2 : ℤ) ^ 52)
  simp [ulp, Int.log_one_right]
  norm_num

theorem roundDouble_tiny [LinearOrderedField α] [FloorRing α] (y : α) (h0 : 0 ≤ y)
    (h1 : y < (2 : α) ^ (-1075 : ℤ)) : roundDouble y = 0 := by
  rcases eq_or_lt_of_le h0 with h | h
  · rw [← h]; exact roundDouble_zero
  have hlog : Int.log 2 |y| < -1022 := by
    rw [abs_of_nonneg h0, ← Int.lt_zpow_iff_log_lt (by norm_num) h]
    refine lt_trans h1 ?_
    push_cast
    exact zpow_lt_zpow_right₀ (by norm_num) (by norm_num)
  have hulp : ulp y = (2 : α) ^ (-1074 : ℤ) := by
    unfold ulp; rw [max_eq_right hlog.le]; norm_num
  have hsplit : (2 : α) ^ (-1075 : ℤ) = 1 / 2 * (2 : α) ^ (-1074 : ℤ) := by
    have : (-1075 : ℤ) = -1 + -1074 := by norm_num
    rw [this, zpow_add₀ (by norm_num)]; norm_num
  have hq : 2 * (y / ulp y) < 1 := by
    rw [hulp]
    have hp : (0 : α) < (2 : α) ^ (-1074 : ℤ) := by positivity
    rw [hsplit] at h1
    have h3 : y / (2 : α) ^ (-1074 : ℤ) < 1 / 2 := by
      rw [div_lt_iff₀ hp]; exact h1
    linarith
  unfold roundDouble
  rw [roundEven_eq_zero _ (div_nonneg h0 (ulp_pos y).le) hq]
  simp

theorem roundDouble_near_one [LinearOrderedField α] [FloorRing α] (y : α)
    (h0 : 1 - (2 : α) ^ (-55 : ℤ) ≤ y) (h1 : y ≤ 1) : roundDouble y = 1 := by
  rcases eq_or_lt_of_le h1 with h | h
  · rw [h]; exact roundDouble_one
  have hsplit : (2 : α) ^ (-55 : ℤ) = 1 / 4 * ((2 : α) ^ 53)⁻¹ := by
    have : (-55 : ℤ) = -2 + -53 := by norm_num
    rw [this, zpow_add₀ (by norm_num)]
    have h53 : (2 : α) ^ (-53 : ℤ) = ((2 : α) ^ 53)⁻¹ := by
      rw [zpow_neg]; norm_cast
    have h2 : (2 : α) ^ (-2 : ℤ) = 1 / 4 := by
      rw [zpow_neg]; norm_num
    rw [h53, h2]
  have hP : (0 : α) < (2 : α) ^ 53 := by positivity
  have hP1 : (1 : α) ≤ (2 : α) ^ 53 := one_le_pow₀ (by norm_num)
  have hinv : ((2 : α) ^ 53)⁻¹ * (2 : α) ^ 53 = 1 := inv_mul_cancel₀ (ne_of_gt hP)
  have hinvle : ((2 : α) ^ 53)⁻¹ ≤ 1 := inv_le_one_of_one_le₀ hP1
  have hinvpos : 0 < ((2 : α) ^ 53)⁻¹ := inv_pos.mpr hP
  have hhalf : 1 / 2 ≤ y := by rw [hsplit] at h0; linarith
  have hpos : 0 < y := lt_of_lt_of_le (by norm_num) hhalf
  have hlog : Int.log 2 |y| = -1 := by
    rw [abs_of_nonneg hpos.le]
    have hlt : Int.log 2 y < 0 := by
      rw [← Int.lt_zpow_iff_log_lt (by norm_num) hpos]; simpa using h
    have hge : -1 ≤ Int.log 2 y := by
      rw [← Int.zpow_le_iff_le_log (by norm_num) hpos]
      have : ((2 : ℕ) : α) ^ (-1 : ℤ) = 1 / 2 := by norm_num
      rw [this]; exact hhalf
    omega
  have hulp : ulp y = ((2 : α) ^ 53)⁻¹ := by
    unfold ulp; rw [hlog]
    have : max (-1 : ℤ) (-1022) - 52 = -53 := by norm_num
    rw [this, zpow_neg]; norm_cast
  have hcast : (((2 : ℤ) ^ 53 : ℤ) : α) = (2 : α) ^ 53 := by
    rw [Int.cast_pow]; norm_num
  have hyP : (2 : α) ^ 53 - 1 / 4 ≤ y * (2 : α) ^ 53 := by
    have := mul_le_mul_of_nonneg_right h0 hP.le
    rw [hsplit] at this
    nlinarith
  have hyP2 : y * (2 : α) ^ 53 < (2 : α) ^ 53 := by nlinarith
  have hr : roundEven (y / ulp y) = (2 : ℤ) ^ 53 := by
    rw [hulp, div_inv_eq_mul]
    apply roundEven_eq_of_close <;> rw [hcast] <;> linarith
  unfold roundDouble
  rw [hr, hulp, hcast]
  exact mul_inv_cancel₀ (ne_of_gt hP)

theorem roundDouble_999 : roundDouble (999 : ℝ) = 999 := by
  have hlog : Int.log 2 |(999 : ℝ)| = 9 := by
    rw [abs_of_nonneg (by norm_num)]
    have hpos : (0 : ℝ) < 999 := by norm_num
    have hlt : Int.log 2 (999 : ℝ) < 10 := by
      rw [← Int.lt_zpow_iff_log_lt (by norm_num) hpos]; norm_num
    have hge : 9 ≤ Int.log 2 (999 : ℝ) := by
      rw [← Int.zpow_le_iff_le_log (by norm_num) hpos]; norm_num
    omega
  apply roundDouble_of_int 999 (999 * 2 ^ 43)
  unfold ulp
  rw [hlog]
  have : max (9 : ℤ) (-1022) - 52 = -43 := by norm_num
  rw [this, zpow_neg, div_inv_eq_mul]
  push_cast
  norm_num

theorem roundDouble_two_zpow_neg_sixty :
    roundDouble ((2 : ℝ) ^ (-60 : ℤ)) = (2 : ℝ) ^ (-60 : ℤ) := by
  have hlog : Int.log 2 |(2 : ℝ) ^ (-60 : ℤ)| = -60 := by
    rw [abs_of_nonneg (by positivity)]
    have := Int.log_zpow (R := ℝ) (b := 2) (by norm_num) (-60)
    simpa using this
  apply roundDouble_of_int _ (2 ^ 52)
  unfold ulp
  rw [hlog]
  have : max (-60 : ℤ) (-1022) - 52 = -112 := by norm_num
  rw [this, ← zpow_sub₀ (by norm_num)]
  norm_num

theorem exp_neg_999_lt : Real.exp (-999) < (2 : ℝ) ^ (-1075 : ℤ) := by
  have hl : Real.log 2 < 0.6931471808 := Real.log_two_lt_d9
  have h2 : (2 : ℝ) ^ (-1075 : ℤ) = Real.exp (Real.log 2 * ((-1075 : ℤ) : ℝ)) := by
    rw [← Real.rpow_intCast, Real.rpow_def_of_pos (by norm_num)]
  rw [h2]
  apply Real.exp_lt_exp.mpr
  push_cast
  linarith

theorem exp_neg_small_ge : 1 - (2 : ℝ) ^ (-55 : ℤ) ≤ Real.exp (-((2 : ℝ) ^ (-60 : ℤ))) := by
  have h1 := Real.add_one_le_exp (-((2 : ℝ) ^ (-60 : ℤ)))
  have h2 : (2 : ℝ) ^ (-60 : ℤ) ≤ (2 : ℝ) ^ (-55 : ℤ) :=
    zpow_le_zpow_right₀ (by norm_num) (by norm_num)
  linarith

/-- C9 (as amended): computed in `double` arithmetic, the velocity term recorded by `step`,
`exp(-|v_x - v_desired|)`, lies in the closed interval `[0, 1]` for every `v_x` and
`v_desired`, and it is exactly 1 when `v_x = v_desired`. -/
theorem forwardVelDifferenceDouble_range (vx vd : ℝ) :
    0 ≤ forwardVelDifferenceDouble realLib vx vd ∧
    forwardVelDifferenceDouble realLib vx vd ≤ 1 ∧
    forwardVelDifferenceDouble realLib vd vd = 1 := by
  have hb := roundDouble_unit_range (Real.exp (-|roundDouble (vx - vd)|))
    (Real.exp_pos _).le (Real.exp_le_one_iff.mpr (by simp))
  refine ⟨hb.1, hb.2, ?_⟩
  simp [forwardVelDifferenceDouble, realLib, roundDouble_zero, roundDouble_one]

/-- C9 (counterexample): with `v_x = 1000` and `v_desired = 1` the difference is 999 and the
exponential is below half the smallest positive `double`, so the recorded term is exactly 0,
outside `(0, 1]`; with `v_x = 2^-60` and `v_desired = 0` the exponential is within `2^-55`
of 1, so the recorded term is exactly 1 although `v_x` differs from `v_desired`. -/
theorem forwardVelDifferenceDouble_not_strict :
    forwardVelDifferenceDouble realLib 1000 1 = 0 ∧
    forwardVelDifferenceDouble realLib ((2 : ℝ) ^ (-60 : ℤ)) 0 = 1 ∧
    (2 : ℝ) ^ (-60 : ℤ) ≠ 0 := by
  refine ⟨?_, ?_, by positivity⟩
  · have h : (1000 : ℝ) - 1 = 999 := by norm_num
    simp only [forwardVelDifferenceDouble, realLib, h, roundDouble_999]
    rw [abs_of_nonneg (by norm_num)]
    exact roundDouble_tiny _ (Real.exp_pos _).le exp_neg_999_lt
  · simp only [forwardVelDifferenceDouble, realLib, sub_zero, roundDouble_two_zpow_neg_sixty]
    rw [abs_of_nonneg (by positivity)]
    exact roundDouble_near_one _ exp_neg_small_ge (Real.exp_le_one_iff.mpr (by
      have : (0 : ℝ) < (2 : ℝ) ^ (-60 : ℤ) := by positivity
      linarith))

/-! ## Integration loop -/

theorem loopBound_of_pos [LinearOrderedField α] [FloorRing α] (cfg : Config α)
    (hc : 0 < cfg.control_dt_) (hs : 0 < cfg.simulation_dt_) :
    loopBound cfg = Int.floor (cfg.control_dt_ / cfg.simulation_dt_ + 1e-10) ∧
    0 ≤ Int.floor (cfg.control_dt_ / cfg.simulation_dt_ + 1e-10) := by
  have h0 : (0 : α) ≤ cfg.control_dt_ / cfg.simulation_dt_ + 1e-10 := by
    have h1 : (0 : α) < cfg.control_dt_ / cfg.simulation_dt_ := div_pos hc hs
    have h2 : (0 : α) ≤ 1e-10 := by norm_num
    linarith
  exact ⟨by simp [loopBound, toInt, h0], Int.floor_nonneg.mpr h0⟩

/-- C10 (as amended): for positive `control_dt_` and `simulation_dt_` whose ratio plus
`1e-10` is in the range of `int`, one call of `step` sets the PD target once, first, and then
performs exactly `floor(control_dt_ / simulation_dt_ + 1e-10)` fine integration steps: the
ratio is truncated after adding the tolerance, not rounded to the nearest integer. -/
theorem step_fine_steps [LinearOrderedField α] [FloorRing α] (L : MathLib α) (cfg : Config α)
    (integrate : World α → World α) (s : ENVIRONMENT α) (action : List α)
    (hc : 0 < cfg.control_dt_) (hs : 0 < cfg.simulation_dt_)
    (_hr : cfg.control_dt_ / cfg.simulation_dt_ + 1e-10 < 2 ^ 31) :
    (((step L cfg integrate s action).calls.countP Call.isIntegrate : Nat) : Int) =
      Int.floor (cfg.control_dt_ / cfg.simulation_dt_ + 1e-10) ∧
    (step L cfg integrate s action).calls.countP Call.isSetPdTarget = 1 ∧
    (∃ p v, (step L cfg integrate s action).calls =
      Call.setPdTarget p v ::
        fineStepsCalls cfg.server_
          (Int.floor (cfg.control_dt_ / cfg.simulation_dt_ + 1e-10)).toNat) := by
  obtain ⟨hb, hn⟩ := loopBound_of_pos cfg hc hs
  rw [step_calls, hb]
  refine ⟨?_, ?_, _, _, rfl⟩
  · simp [List.countP_cons, Call.isIntegrate, (countP_fineStepsCalls _ _).1,
      Int.toNat_of_nonneg hn]
  · simp [List.countP_cons, Call.isSetPdTarget, (countP_fineStepsCalls _ _).2]

/-- Witness for the amended C10 statement: `control_dt_ = 0.01`, `simulation_dt_ = 0.001`. -/
theorem step_fine_steps_witness :
    (0 : ℝ) < 0.01 ∧ (0 : ℝ) < 0.001 ∧ ((0.01 : ℝ) / 0.001 + 1e-10 < 2 ^ 31) ∧
    (((step realLib (sampleConfig 0 0 0 0 0.01 0.001) id
        (construct (sampleWorld 0 (setZero 14) []) 0 [] [])
        [0, 0, 0, 0, 0, 0, 0, 0]).calls.countP Call.isIntegrate : Nat) : Int) =
      Int.floor ((0.01 : ℝ) / 0.001 + 1e-10) :=
  ⟨by norm_num, by norm_num, by norm_num,
    (step_fine_steps realLib (sampleConfig 0 0 0 0 0.01 0.001) id
      (construct (sampleWorld 0 (setZero 14) []) 0 [] []) [0, 0, 0, 0, 0, 0, 0, 0]
      (by norm_num [sampleConfig]) (by norm_num [sampleConfig])
      (by norm_num [sampleConfig])).1⟩

/-- C10 (counterexample): with `control_dt_ = 0.019` and `simulation_dt_ = 0.01` the ratio is
1.9; `step` performs 1 fine integration step, while the nearest integer to the ratio is 2. -/
theorem step_fine_steps_not_round :
    (((step realLib (sampleConfig 0 0 0 0 0.019 0.01) id
        (construct (sampleWorld 0 (setZero 14) []) 0 [] [])
        [0, 0, 0, 0, 0, 0, 0, 0]).calls.countP Call.isIntegrate : Nat) : Int) ≠
      round ((0.019 : ℝ) / 0.01) ∧
    (step realLib (sampleConfig 0 0 0 0 0.019 0.01) id
        (construct (sampleWorld 0 (setZero 14) []) 0 [] [])
        [0, 0, 0, 0, 0, 0, 0, 0]).calls.countP Call.isIntegrate = 1 ∧
    round ((0.019 : ℝ) / 0.01) = 2 := by
  have hb : loopBound (sampleConfig (0 : ℝ) 0 0 0 0.019 0.01) = 1 := by
    rw [(loopBound_of_pos _ (by norm_num [sampleConfig]) (by norm_num [sampleConfig])).1]
    rw [Int.floor_eq_iff]
    constructor <;> norm_num [sampleConfig]
  have hcount : (step realLib (sampleConfig 0 0 0 0 0.019 0.01) id
        (construct (sampleWorld 0 (setZero 14) []) 0 [] [])
        [0, 0, 0, 0, 0, 0, 0, 0]).calls.countP Call.isIntegrate = 1 := by
    rw [step_calls, hb]
    simp [List.countP_cons, Call.isIntegrate, (countP_fineStepsCalls _ _).1]
  have hround : round ((0.019 : ℝ) / 0.01) = 2 := by
    rw [round_eq, Int.floor_eq_iff]
    constructor <;> norm_num
  refine ⟨?_, hcount, hround⟩
  rw [hcount, hround]
  norm_num

/-! ## Entropy bounds -/

theorem neg_mul_log_ge (p : ℝ) (hp : 0 < p) : p - p ^ 2 ≤ -(p * Real.log p) := by
  have h := Real.log_le_sub_one_of_pos hp
  nlinarith

theorem neg_mul_log_le (q : ℝ) (hq0 : 0 ≤ q) (hq1 : q ≤ 1) :
    -((q + 1e-6) * Real.log (q + 1e-6)) ≤
      Real.log 2 / 2 + (Real.log 2 - 1) * (q ^ 2 - 1 / 4) := by
  have hL1 : 0.69 < Real.log 2 := lt_trans (by norm_num) Real.log_two_gt_d9
  have hL2 : Real.log 2 < 0.7 := lt_trans Real.log_two_lt_d9 (by norm_num)
  have hp : (0 : ℝ) < q + 1e-6 := by
    have : (0 : ℝ) < 1e-6 := by norm_num
    linarith
  have hs2 : Real.sqrt (2 * (q + 1e-6)) ^ 2 = 2 * (q + 1e-6) := Real.sq_sqrt (by linarith)
  have hs : 0 < Real.sqrt (2 * (q + 1e-6)) := Real.sqrt_pos.mpr (by linarith)
  generalize Real.sqrt (2 * (q + 1e-6)) = s at hs2 hs
  have hlog : Real.log (q + 1e-6) = 2 * Real.log s - Real.log 2 := by
    have h1 : Real.log (s ^ 2) = 2 * Real.log s := by
      rw [Real.log_pow]; norm_num
    have h2 : Real.log (2 * (q + 1e-6)) = Real.log 2 + Real.log (q + 1e-6) :=
      Real.log_mul (by norm_num) (ne_of_gt hp)
    rw [hs2] at h1
    linarith
  have hls : 1 - s⁻¹ ≤ Real.log s := Real.one_sub_inv_le_log_of_pos hs
  have hinv : s * s⁻¹ = 1 := mul_inv_cancel₀ (ne_of_gt hs)
  have hs_le : s ≤ 3 / 2 := by
    by_contra hcon
    push_neg at hcon
    have : (1e-6 : ℝ) < 0.1 := by norm_num
    nlinarith
  have hq : q = s ^ 2 / 2 - 1e-6 := by linarith
  have hmul : (s ^ 2 / 2) * (2 * (1 - s⁻¹) - Real.log 2) ≤
      (s ^ 2 / 2) * (2 * Real.log s - Real.log 2) := by
    apply mul_le_mul_of_nonneg_left _ (by positivity)
    linarith
  have hexp : (s ^ 2 / 2) * (2 * (1 - s⁻¹) - Real.log 2) =
      s ^ 2 - s - (s ^ 2 / 2) * Real.log 2 := by
    have : s ^ 2 * s⁻¹ = s := by rw [pow_two, mul_assoc, hinv, mul_one]
    linear_combination (-1 : ℝ) * this
  have hp2 : q + 1e-6 = s ^ 2 / 2 := by linarith
  rw [hlog, hp2]
  have hfac : 0 ≤ (s - 1) ^ 2 * (1 / 2 - (1 - Real.log 2) * (s + 1) ^ 2 / 4) := by
    apply mul_nonneg (sq_nonneg _)
    have h3 : (s + 1) ^ 2 ≤ 25 / 4 := by nlinarith
    have h4 : (1 - Real.log 2) * (s + 1) ^ 2 ≤ 0.31 * (25 / 4) := by
      apply mul_le_mul (by linarith) h3 (sq_nonneg _) (by norm_num)
    norm_num at h4 ⊢
    linarith
  have heps : 0 ≤ (1 - Real.log 2) * 1e-6 * (s ^ 2 - 1e-6) := by
    apply mul_nonneg (mul_nonneg (by linarith) (by norm_num))
    have : (0:ℝ) ≤ 1e-6 := by norm_num
    linarith
  have hid : Real.log 2 / 2 + (Real.log 2 - 1) * (q ^ 2 - 1 / 4) +
      (s ^ 2 - s - (s ^ 2 / 2) * Real.log 2) =
      (s - 1) ^ 2 * (1 / 2 - (1 - Real.log 2) * (s + 1) ^ 2 / 4) +
        (1 - Real.log 2) * 1e-6 * (s ^ 2 - 1e-6) := by
    rw [hq]; ring
  linarith

theorem entropy_bounds (q0 q1 q2 q3 : ℝ) (h0 : 0 ≤ q0) (h1 : 0 ≤ q1) (h2 : 0 ≤ q2)
    (h3 : 0 ≤ q3) (hsum : q0 ^ 2 + q1 ^ 2 + q2 ^ 2 + q3 ^ 2 = 1) :
    0 ≤ -((q0 + 1e-6) * Real.log (q0 + 1e-6) + (q1 + 1e-6) * Real.log (q1 + 1e-6) +
          (q2 + 1e-6) * Real.log (q2 + 1e-6) + (q3 + 1e-6) * Real.log (q3 + 1e-6)) ∧
    -((q0 + 1e-6) * Real.log (q0 + 1e-6) + (q1 + 1e-6) * Real.log (q1 + 1e-6) +
          (q2 + 1e-6) * Real.log (q2 + 1e-6) + (q3 + 1e-6) * Real.log (q3 + 1e-6)) ≤
      Real.log 4 := by
  have he : (0 : ℝ) < 1e-6 := by norm_num
  have he2 : (1e-6 : ℝ) < 0.1 := by norm_num
  have hle : ∀ q : ℝ, 0 ≤ q → q ^ 2 ≤ 1 → q ≤ 1 := fun q hq hq2 => by nlinarith
  have b0 : q0 ≤ 1 := hle q0 h0 (by nlinarith [sq_nonneg q1, sq_nonneg q2, sq_nonneg q3])
  have b1 : q1 ≤ 1 := hle q1 h1 (by nlinarith [sq_nonneg q0, sq_nonneg q2, sq_nonneg q3])
  have b2 : q2 ≤ 1 := hle q2 h2 (by nlinarith [sq_nonneg q0, sq_nonneg q1, sq_nonneg q3])
  have b3 : q3 ≤ 1 := hle q3 h3 (by nlinarith [sq_nonneg q0, sq_nonneg q1, sq_nonneg q2])
  constructor
  · have l0 := neg_mul_log_ge (q0 + 1e-6) (by linarith)
    have l1 := neg_mul_log_ge (q1 + 1e-6) (by linarith)
    have l2 := neg_mul_log_ge (q2 + 1e-6) (by linarith)
    have l3 := neg_mul_log_ge (q3 + 1e-6) (by linarith)
    have hS : 1 ≤ q0 + q1 + q2 + q3 := by
      by_contra hcon
      push_neg at hcon
      nlinarith [mul_nonneg h0 h1, mul_nonneg h0 h2, mul_nonneg h0 h3, mul_nonneg h1 h2,
        mul_nonneg h1 h3, mul_nonneg h2 h3]
    have hkey : (q0 + 1e-6 - (q0 + 1e-6) ^ 2) + (q1 + 1e-6 - (q1 + 1e-6) ^ 2) +
        (q2 + 1e-6 - (q2 + 1e-6) ^ 2) + (q3 + 1e-6 - (q3 + 1e-6) ^ 2) =
        (1 - 2 * 1e-6) * (q0 + q1 + q2 + q3 - 1 + 2 * 1e-6) := by
      linear_combination (-1 : ℝ) * hsum
    have hnn : (0 : ℝ) ≤ (1 - 2 * 1e-6) * (q0 + q1 + q2 + q3 - 1 + 2 * 1e-6) :=
      mul_nonneg (by linarith) (by linarith)
    linarith
  · have u0 := neg_mul_log_le q0 h0 b0
    have u1 := neg_mul_log_le q1 h1 b1
    have u2 := neg_mul_log_le q2 h2 b2
    have u3 := neg_mul_log_le q3 h3 b3
    have h4 : Real.log 4 = 2 * Real.log 2 := by
      have : (4 : ℝ) = 2 ^ 2 := by norm_num
      rw [this, Real.log_pow]; norm_num
    have hcomb : (Real.log 2 - 1) * (q0 ^ 2 - 1 / 4) + (Real.log 2 - 1) * (q1 ^ 2 - 1 / 4) +
        (Real.log 2 - 1) * (q2 ^ 2 - 1 / 4) + (Real.log 2 - 1) * (q3 ^ 2 - 1 / 4) = 0 := by
      linear_combination (Real.log 2 - 1) * hsum
    rw [h4]
    linarith

/-- C7: for a per-foot impulse 4-vector with non-negative entries, not all zero, the entropy
computed by lines 177-179 (divide by the norm, add `1e-6` to every entry, take
`-(p * log p).sum()`) lies in the closed interval `[0, log 4]`. -/
theorem grfEntropy_range (v : List ℝ) (hlen : v.length = 4) (hnn : ∀ x ∈ v, 0 ≤ x)
    (hne : ∃ x ∈ v, x ≠ 0) :
    0 ≤ (grfEntropy realLib v).2 ∧ (grfEntropy realLib v).2 ≤ Real.log 4 := by
  rcases v with _ | ⟨a, _ | ⟨b, _ | ⟨c, _ | ⟨d, _ | ⟨e, t⟩⟩⟩⟩⟩ <;> simp at hlen
  simp only [List.mem_cons, List.mem_singleton, List.not_mem_nil, or_false, forall_eq_or_imp,
    forall_eq] at hnn
  obtain ⟨ha, hb, hc, hd⟩ := hnn
  have hz : 0 < squaredNorm [a, b, c, d] := by
    simp only [squaredNorm, List.map_cons, List.map_nil, List.sum_cons, List.sum_nil, add_zero]
    obtain ⟨x, hx, hx0⟩ := hne
    simp only [List.mem_cons, List.mem_singleton, List.not_mem_nil, or_false] at hx
    rcases hx with rfl | rfl | rfl | rfl
    · nlinarith [mul_self_pos.mpr hx0, mul_self_nonneg b, mul_self_nonneg c, mul_self_nonneg d]
    · nlinarith [mul_self_pos.mpr hx0, mul_self_nonneg a, mul_self_nonneg c, mul_self_nonneg d]
    · nlinarith [mul_self_pos.mpr hx0, mul_self_nonneg a, mul_self_nonneg b, mul_self_nonneg d]
    · nlinarith [mul_self_pos.mpr hx0, mul_self_nonneg a, mul_self_nonneg b, mul_self_nonneg c]
  have hn : 0 < Real.sqrt (squaredNorm [a, b, c, d]) := Real.sqrt_pos.mpr hz
  have hn2 : Real.sqrt (squaredNorm [a, b, c, d]) ^ 2 = a * a + b * b + c * c + d * d := by
    rw [Real.sq_sqrt hz.le]
    simp [squaredNorm, add_assoc]
  have heq : (grfEntropy realLib [a, b, c, d]).2 =
      -((a / Real.sqrt (squaredNorm [a, b, c, d]) + 1e-6) *
          Real.log (a / Real.sqrt (squaredNorm [a, b, c, d]) + 1e-6) +
        (b / Real.sqrt (squaredNorm [a, b, c, d]) + 1e-6) *
          Real.log (b / Real.sqrt (squaredNorm [a, b, c, d]) + 1e-6) +
        (c / Real.sqrt (squaredNorm [a, b, c, d]) + 1e-6) *
          Real.log (c / Real.sqrt (squaredNorm [a, b, c, d]) + 1e-6) +
        (d / Real.sqrt (squaredNorm [a, b, c, d]) + 1e-6) *
          Real.log (d / Real.sqrt (squaredNorm [a, b, c, d]) + 1e-6)) := by
    simp only [grfEntropy, normalize, if_pos hz, realLib, List.map_cons, List.map_nil,
      List.sum_cons, List.sum_nil, add_zero, add_assoc]
  rw [heq]
  generalize Real.sqrt (squaredNorm [a, b, c, d]) = n at hn hn2
  have hsum : (a / n) ^ 2 + (b / n) ^ 2 + (c / n) ^ 2 + (d / n) ^ 2 = 1 := by
    field_simp
    linarith
  exact entropy_bounds _ _ _ _ (div_nonneg ha hn.le) (div_nonneg hb hn.le)
    (div_nonneg hc hn.le) (div_nonneg hd hn.le) hsum

/-- Witness for the C7 theorem: all the load on the first foot. -/
theorem grfEntropy_range_witness :
    ([1, 0, 0, 0] : List ℝ).length = 4 ∧ (∀ x ∈ ([1, 0, 0, 0] : List ℝ), 0 ≤ x) ∧
    (∃ x ∈ ([1, 0, 0, 0] : List ℝ), x ≠ 0) ∧
    0 ≤ (grfEntropy realLib [1, 0, 0, 0]).2 ∧ (grfEntropy realLib [1, 0, 0, 0]).2 ≤ Real.log 4 :=
  ⟨rfl, by simp, ⟨1, by simp, one_ne_zero⟩,
    grfEntropy_range [1, 0, 0, 0] rfl (by simp) ⟨1, by simp, one_ne_zero⟩⟩

/-! ## Contact loop with no foot impulse -/

theorem footLoop_of_not_mem (idx : List Nat) (body : Nat) (r : α) (h : body ∉ idx)
    (k i : Nat) (total : List α) (hk : k = 0 ∨ i + k ≤ idx.length) :
    footLoop idx body r k i total = total := by
  induction k generalizing i total with
  | zero => rfl
  | succ k ih =>
    have hi : i < idx.length := by omega
    have hne : idx.getD i 0 ≠ body := by
      intro heq
      apply h
      rw [← heq, List.getD_eq_getElem _ _ hi]
      exact List.getElem_mem _
    simp only [footLoop, if_neg hne]
    exact ih (i + 1) total (Or.inr (by omega))

theorem contactStep_skip [LinearOrderedField α] (L : MathLib α) (cfg : Config α)
    (s : ENVIRONMENT α) (c : Contact α) (hc : c.skip = true) : contactStep L cfg s c = s := by
  simp [contactStep, hc]

theorem contactStep_not_foot [LinearOrderedField α] (L : MathLib α) (cfg : Config α)
    (s : ENVIRONMENT α) (c : Contact α) (hc : c.skip = false)
    (hb : c.localBodyIndex ∉ cfg.contact_foot_idx) :
    (contactStep L cfg s c).total_contact_impulse = (grfEntropy L s.total_contact_impulse).1 ∧
    (contactStep L cfg s c).GRF_entropy = (grfEntropy L s.total_contact_impulse).2 := by
  have hf : footLoop cfg.contact_foot_idx c.localBodyIndex c.readBack (4 - c.loopStart)
      c.loopStart s.total_contact_impulse = s.total_contact_impulse :=
    footLoop_of_not_mem _ _ _ hb _ _ _ (by simp [Config.contact_foot_idx]; omega)
  simp [contactStep, hc, hf]

theorem grfEntropy_zero [LinearOrderedField α] (L : MathLib α) :
    grfEntropy L [0, 0, 0, 0] =
      ([1e-6, 1e-6, 1e-6, 1e-6], -(4 * (1e-6 * L.log 1e-6))) := by
  simp [grfEntropy, normalize, squaredNorm]
  ring

theorem grfEntropy_const (x : ℝ) (hx : 0 < x) :
    grfEntropy realLib [x, x, x, x] =
      ([1 / 2 + 1e-6, 1 / 2 + 1e-6, 1 / 2 + 1e-6, 1 / 2 + 1e-6],
        -(4 * ((1 / 2 + 1e-6) * Real.log (1 / 2 + 1e-6)))) := by
  have hz : squaredNorm [x, x, x, x] = (2 * x) ^ 2 := by
    simp [squaredNorm]; ring
  have hs : Real.sqrt (squaredNorm [x, x, x, x]) = 2 * x := by
    rw [hz, Real.sqrt_sq (by linarith)]
  have hpos : 0 < squaredNorm [x, x, x, x] := by rw [hz]; positivity
  have hdiv : x / (2 * x) = 1 / 2 := by
    rw [div_eq_iff (by positivity)]; ring
  simp only [grfEntropy, normalize, if_pos hpos, realLib, hs, hdiv, List.map_cons,
    List.map_nil, List.sum_cons, List.sum_nil, add_zero]
  refine Prod.ext rfl ?_
  simp only
  ring

theorem foldl_contactStep_half (cfg : Config ℝ) (cs : List (Contact ℝ))
    (hcs : ∀ c ∈ cs, c.skip = false → c.localBodyIndex ∉ cfg.contact_foot_idx)
    (s : ENVIRONMENT ℝ) (x : ℝ) (hx : 0 < x) (ht : s.total_contact_impulse = [x, x, x, x]) :
    (cs.foldl (contactStep realLib cfg) s).GRF_entropy =
      if cs.countP (fun c => !c.skip) = 0 then s.GRF_entropy
      else -(4 * ((1 / 2 + 1e-6) * Real.log (1 / 2 + 1e-6))) := by
  induction cs generalizing s x with
  | nil => simp
  | cons c cs ih =>
    have hcs2 : ∀ c ∈ cs, c.skip = false → c.localBodyIndex ∉ cfg.contact_foot_idx :=
      fun d hd => hcs d (List.mem_cons_of_mem _ hd)
    simp only [List.foldl_cons]
    by_cases hc : c.skip = true
    · rw [contactStep_skip _ _ _ _ hc, ih hcs2 s x hx ht]
      simp [List.countP_cons, hc]
    · have hc2 : c.skip = false := by simpa using hc
      obtain ⟨h1, h2⟩ := contactStep_not_foot realLib cfg s c hc2
        (hcs c (List.mem_cons_self _ _) hc2)
      rw [ht, grfEntropy_const x hx] at h1 h2
      rw [ih hcs2 (contactStep realLib cfg s c) (1 / 2 + 1e-6) (by norm_num) h1, h2]
      simp [List.countP_cons, hc2]

theorem foldl_contactStep_zero (cfg : Config ℝ) (cs : List (Contact ℝ))
    (hcs : ∀ c ∈ cs, c.skip = false → c.localBodyIndex ∉ cfg.contact_foot_idx)
    (s : ENVIRONMENT ℝ) (ht : s.total_contact_impulse = [0, 0, 0, 0]) :
    (cs.foldl (contactStep realLib cfg) s).GRF_entropy =
      if cs.countP (fun c => !c.skip) = 0 then s.GRF_entropy
      else if cs.countP (fun c => !c.skip) = 1 then -(4 * (1e-6 * Real.log 1e-6))
      else -(4 * ((1 / 2 + 1e-6) * Real.log (1 / 2 + 1e-6))) := by
  induction cs generalizing s with
  | nil => simp
  | cons c cs ih =>
    have hcs2 : ∀ c ∈ cs, c.skip = false → c.localBodyIndex ∉ cfg.contact_foot_idx :=
      fun d hd => hcs d (List.mem_cons_of_mem _ hd)
    simp only [List.foldl_cons]
    by_cases hc : c.skip = true
    · rw [contactStep_skip _ _ _ _ hc, ih hcs2 s ht]
      simp [List.countP_cons, hc]
    · have hc2 : c.skip = false := by simpa using hc
      obtain ⟨h1, h2⟩ := contactStep_not_foot realLib cfg s c hc2
        (hcs c (List.mem_cons_self _ _) hc2)
      rw [ht, grfEntropy_zero] at h1 h2
      rw [foldl_contactStep_half cfg cs hcs2 (contactStep realLib cfg s c) 1e-6
        (by norm_num) h1, h2]
      simp only [realLib]
      by_cases h0 : cs.countP (fun c => !c.skip) = 0
      · simp [List.countP_cons, hc2, h0]
      · simp [List.countP_cons, hc2, h0]

theorem updateObservation_entropy_eq (cfg : Config ℝ) (s : ENVIRONMENT ℝ)
    (hcs : ∀ c ∈ s.world.contacts, c.skip = false →
      c.localBodyIndex ∉ cfg.contact_foot_idx) :
    (updateObservation realLib cfg s).GRF_entropy =
      if s.world.contacts.countP (fun c => !c.skip) = 0 then s.GRF_entropy
      else if s.world.contacts.countP (fun c => !c.skip) = 1 then
        -(4 * (1e-6 * Real.log 1e-6))
      else -(4 * ((1 / 2 + 1e-6) * Real.log (1 / 2 + 1e-6))) := by
  simp only [updateObservation]
  rw [foldl_contactStep_zero cfg _ hcs _ (by simp [setZero])]

theorem entropy_of_zero_lt_log_four : -(4 * (1e-6 * Real.log 1e-6)) < Real.log 4 := by
  have h1 : (1e-6 : ℝ) = (1 / 10) ^ 6 := by norm_num
  have h2 : Real.log ((1 / 10 : ℝ) ^ 6) = 6 * Real.log (1 / 10) := by
    rw [Real.log_pow]; norm_num
  have h3 : 1 - (1 / 10 : ℝ)⁻¹ ≤ Real.log (1 / 10) :=
    Real.one_sub_inv_le_log_of_pos (by norm_num)
  have h4 : Real.log 4 = 2 * Real.log 2 := by
    have : (4 : ℝ) = 2 ^ 2 := by norm_num
    rw [this, Real.log_pow]; norm_num
  have h5 : 0.69 < Real.log 2 := lt_trans (by norm_num) Real.log_two_gt_d9
  rw [h4]
  nth_rewrite 2 [h1]
  rw [h2]
  norm_num at h3 h5 ⊢
  linarith

theorem entropy_of_half_lt_log_four :
    -(4 * ((1 / 2 + 1e-6) * Real.log (1 / 2 + 1e-6))) < Real.log 4 := by
  have h1 : (1 / 2 + 1e-6 : ℝ) = (500001 / 500000) / 2 := by norm_num
  have h2 : Real.log ((500001 / 500000 : ℝ) / 2) =
      Real.log (500001 / 500000) - Real.log 2 :=
    Real.log_div (by norm_num) (by norm_num)
  have h3 : 1 - (500001 / 500000 : ℝ)⁻¹ ≤ Real.log (500001 / 500000) :=
    Real.one_sub_inv_le_log_of_pos (by norm_num)
  have h4 : Real.log 4 = 2 * Real.log 2 := by
    have : (4 : ℝ) = 2 ^ 2 := by norm_num
    rw [this, Real.log_pow]; norm_num
  have h5 : Real.log 2 < 0.7 := lt_trans Real.log_two_lt_d9 (by norm_num)
  rw [h4, h1, h2]
  norm_num at h3 h5 ⊢
  linarith

/-- C6 (as amended): when exactly one contact of the step is not skipped and it is on a
non-foot body, so that the 4 per-foot impulses are zero, the entropy left by
`updateObservation` is `-4 * 1e-6 * log(1e-6)`, whatever its value was before the call:
normalisation leaves the zero vector as it is and `1e-6` is added to every entry.  This
value is below `log 4`; the zero vector is not replaced by a uniform distribution. -/
theorem updateObservation_entropy_zero_impulse (cfg : Config ℝ) (s : ENVIRONMENT ℝ)
    (hcs : ∀ c ∈ s.world.contacts, c.skip = false →
      c.localBodyIndex ∉ cfg.contact_foot_idx)
    (hone : s.world.contacts.countP (fun c => !c.skip) = 1) :
    (updateObservation realLib cfg s).GRF_entropy = -(4 * (1e-6 * Real.log 1e-6)) ∧
    (updateObservation realLib cfg s).GRF_entropy < Real.log 4 := by
  have h : (updateObservation realLib cfg s).GRF_entropy = -(4 * (1e-6 * Real.log 1e-6)) := by
    rw [updateObservation_entropy_eq cfg s hcs, hone]
    simp
  exact ⟨h, by rw [h]; exact entropy_of_zero_lt_log_four⟩

/-- Witness for the amended C6 statement: a skipped contact followed by one contact on
body 0, which is not a foot, not skipped; the entropy before the call is 7. -/
theorem updateObservation_entropy_zero_impulse_witness :
    (∀ c ∈ (construct (sampleWorld (0 : ℝ) (setZero 14)
        [sampleContact true 2 1, sampleContact false 0 1]) 7 [] []).world.contacts,
      c.skip = false →
        c.localBodyIndex ∉ (sampleConfig (1 : ℝ) (-1) 1 1 0.01 0.001).contact_foot_idx) ∧
    (construct (sampleWorld (0 : ℝ) (setZero 14)
        [sampleContact true 2 1, sampleContact false 0 1]) 7 [] []).world.contacts.countP
      (fun c => !c.skip) = 1 ∧
    (updateObservation realLib (sampleConfig 1 (-1) 1 1 0.01 0.001)
      (construct (sampleWorld (0 : ℝ) (setZero 14)
        [sampleContact true 2 1, sampleContact false 0 1]) 7 [] [])).GRF_entropy =
      -(4 * (1e-6 * Real.log 1e-6)) := by
  have h : ∀ c ∈ (construct (sampleWorld (0 : ℝ) (setZero 14)
        [sampleContact true 2 1, sampleContact false 0 1]) 7 [] []).world.contacts,
      c.skip = false →
        c.localBodyIndex ∉ (sampleConfig (1 : ℝ) (-1) 1 1 0.01 0.001).contact_foot_idx := by
    simp [construct, sampleWorld, sampleContact, sampleConfig, Config.contact_foot_idx]
  have h1 : (construct (sampleWorld (0 : ℝ) (setZero 14)
        [sampleContact true 2 1, sampleContact false 0 1]) 7 [] []).world.contacts.countP
      (fun c => !c.skip) = 1 := by
    simp [construct, sampleWorld, sampleContact, List.countP_cons]
  exact ⟨h, h1, (updateObservation_entropy_zero_impulse _ _ h h1).1⟩

/-- C6 (counterexample): on the empty contact list the 4 per-foot impulses are zero and the
entropy stays at its previous value 0; with one contact on body 0 (not a foot) they are zero
before normalisation and the entropy is `-4 * 1e-6 * log(1e-6)`.  Neither is `log 4`. -/
theorem updateObservation_entropy_not_log_four :
    (updateObservation realLib (sampleConfig 1 (-1) 1 1 0.01 0.001)
      (construct (sampleWorld (0 : ℝ) (setZero 14) []) 0 [] [])).total_contact_impulse =
        [0, 0, 0, 0] ∧
    (updateObservation realLib (sampleConfig 1 (-1) 1 1 0.01 0.001)
      (construct (sampleWorld (0 : ℝ) (setZero 14) []) 0 [] [])).GRF_entropy ≠ Real.log 4 ∧
    (updateObservation realLib (sampleConfig 1 (-1) 1 1 0.01 0.001)
      (construct (sampleWorld (0 : ℝ) (setZero 14) [sampleContact false 0 1])
        0 [] [])).GRF_entropy ≠ Real.log 4 := by
  have hlog : (0 : ℝ) < Real.log 4 := Real.log_pos (by norm_num)
  refine ⟨?_, ?_, ?_⟩
  · simp [updateObservation, construct, sampleWorld, setZero]
  · have h0 : (updateObservation realLib (sampleConfig 1 (-1) 1 1 0.01 0.001)
        (construct (sampleWorld (0 : ℝ) (setZero 14) []) 0 [] [])).GRF_entropy = 0 := by
      simp [updateObservation, construct, sampleWorld]
    rw [h0]
    exact ne_of_lt hlog
  · rw [updateObservation_entropy_eq _ _ (by
      simp [construct, sampleWorld, sampleContact, sampleConfig, Config.contact_foot_idx])]
    simp only [construct, sampleWorld, sampleContact, List.countP_cons, List.countP_nil,
      Bool.not_false, if_true, zero_add, one_ne_zero, if_false]
    exact ne_of_lt entropy_of_zero_lt_log_four

/-! ## Termination check -/

theorem anyNonFoot_iff (footIndices : List Nat) (cs : List (Contact α)) :
    anyNonFoot footIndices cs = true ↔ ∃ c ∈ cs, c.localBodyIndex ∉ footIndices := by
  induction cs with
  | nil => simp [anyNonFoot]
  | cons c cs ih =>
    by_cases h : c.localBodyIndex ∈ footIndices
    · simp [anyNonFoot, h, ih]
    · simp [anyNonFoot, h]

/-- C1: `isTerminalState` returns `true` exactly when some active contact has a local body
index outside the foot whitelist; the terminal reward it leaves is `-10` when it returns
`true` and `0` when it returns `false`. -/
theorem isTerminalState_iff [Field α] (footIndices : List Nat) (s : ENVIRONMENT α) :
    ((isTerminalState footIndices s).1 = true ↔
        ∃ c ∈ s.world.contacts, c.localBodyIndex ∉ footIndices) ∧
    (isTerminalState footIndices s).2 =
      (if (isTerminalState footIndices s).1 then (-10 : α) else 0) := by
  by_cases h : anyNonFoot footIndices s.world.contacts = true
  · refine ⟨?_, ?_⟩
    · simp [isTerminalState, h, ← anyNonFoot_iff]
    · simp [isTerminalState, h, terminalRewardCoeff_]
  · refine ⟨?_, ?_⟩
    · simp [isTerminalState, h, ← anyNonFoot_iff]
    · simp [isTerminalState, h]

end raisim
